import Mathlib

/-!
# AllNewsAPI JavaScript SDK: verification of `src/index.js`

A shallow embedding of the SDK (`NewsAPI`, `NewsAPIError`) together with a
model of the parts of the JavaScript runtime it calls: property access,
truthiness, `ToString`, `Array.prototype.join`, the WHATWG `URL` /
`URLSearchParams` classes (UTF-8, percent-encoding, the
`application/x-www-form-urlencoded` serializer and parser) and `fetch`.

Conventions of the model:
* JavaScript strings are Lean `String`s (sequences of Unicode scalar values).
* A Number is given by the text that `Number::toString` prints for it (`10`,
  `0.5`, `1e+21`, `NaN`); that text determines everything the SDK observes
  of a number. HTTP status codes are natural numbers.
* Two kinds of values are kept apart: `JSVal`, the values of options, of the
  configuration and of the key (scalars, sequences, dates), whose string
  conversion always returns; and `JSONVal`, the values of a decoded JSON
  body, where `ToString` throws on an object with an own `toString`
  property.
* An object is the list of its own enumerable properties in enumeration
  order; a well-formed object has pairwise distinct keys.
* A promise is modelled by its settlement: `Except.ok` for a fulfilled
  promise, `Except.error` for a rejected one.
-/

namespace AllNewsAPI

/-! ## JavaScript values -/

/-- A `Date` object, observed through the two methods the SDK can reach:
`toISOString()` (which throws a `RangeError` on an invalid date, modelled by
`none`) and `toString()`. -/
structure JSDate where
  iso : Option String
  text : String

/-- JavaScript values that occur as option values, in the configuration and
as the key: `undefined`, `null`, scalars, dates and sequences. A number is
given by its `Number::toString` text. -/
inductive JSVal where
  | undefined
  | null
  | bool (b : Bool)
  | num (text : String)
  | str (s : String)
  | date (d : JSDate)
  | arr (elems : List JSVal)

/-- JavaScript values that a decoded JSON body consists of, with `undefined`
for the value of an absent property. A number is given by its
`Number::toString` text. -/
inductive JSONVal where
  | undefined
  | null
  | bool (b : Bool)
  | num (text : String)
  | str (s : String)
  | arr (elems : List JSONVal)
  | obj (props : List (String × JSONVal))

/-- An object given by its own enumerable properties, in the order in which
`Object.entries` lists them. -/
abbrev JSObject := List (String × JSVal)

/-- Property keys of a JavaScript object are pairwise distinct. -/
def JSObject.WF (o : JSObject) : Prop := (o.map Prod.fst).Nodup

instance (o : JSObject) : Decidable (JSObject.WF o) := by
  unfold JSObject.WF; infer_instance

mutual
/-- The `ToString` conversion (`value.toString()` for the values of the
model); on an array it is `join(",")`. -/
def JSVal.toStr : JSVal → String
  | .undefined => "undefined"
  | .null => "null"
  | .bool true => "true"
  | .bool false => "false"
  | .num text => text
  | .str s => s
  | .date d => d.text
  | .arr elems => String.intercalate "," (JSVal.joinParts elems)
/-- The per-element strings of `Array.prototype.join`: `undefined` and
`null` elements contribute the empty string. -/
def JSVal.joinParts : List JSVal → List String
  | [] => []
  | .undefined :: rest => "" :: JSVal.joinParts rest
  | .null :: rest => "" :: JSVal.joinParts rest
  | v :: rest => JSVal.toStr v :: JSVal.joinParts rest
end

/-- `Array.prototype.join(sep)`. -/
def JSVal.join (elems : List JSVal) (sep : String) : String :=
  String.intercalate sep (JSVal.joinParts elems)

/-- `value !== null && value !== undefined`. -/
def JSVal.isPresent : JSVal → Bool
  | .undefined => false
  | .null => false
  | _ => true

/-- JavaScript truthiness (`ToBoolean`). -/
def JSVal.truthy : JSVal → Bool
  | .undefined => false
  | .null => false
  | .bool b => b
  | .num text => text != "0" && text != "NaN"
  | .str s => s != ""
  | .date _ => true
  | .arr _ => true

/-- The operator `a || b`. -/
def JSVal.or (a b : JSVal) : JSVal := if a.truthy then a else b

/-- A scalar option value: string, number or boolean. -/
def JSVal.isScalar : JSVal → Bool
  | .bool _ => true
  | .num _ => true
  | .str _ => true
  | _ => false

/-- Strict equality `v === "s"` against a string literal. -/
def JSVal.isStr (v : JSVal) (s : String) : Bool :=
  match v with
  | .str t => t == s
  | _ => false

/-- Own-property lookup `o.key` on an object; `undefined` when absent. -/
def JSObject.get (o : JSObject) (key : String) : JSVal :=
  match o.find? (fun p => p.1 == key) with
  | some p => p.2
  | none => .undefined

/-- Assignment `o.key = v`: an existing property keeps its place, a new one
is added last. -/
def JSObject.set : JSObject → String → JSVal → JSObject
  | [], key, v => [(key, v)]
  | p :: rest, key, v =>
    if p.1 == key then (key, v) :: rest else p :: JSObject.set rest key v

/-! ## Values of a decoded JSON body -/

mutual
/-- The `ToString` conversion of a body value; `none` when it throws a
`TypeError`. An array converts through `join(",")`. A plain object converts
to `[object Object]` through `Object.prototype.toString`, unless it has an
own property `toString`: that value is not callable, `valueOf` does not
yield a primitive either, and the conversion throws. -/
def JSONVal.toStr : JSONVal → Option String
  | .undefined => some "undefined"
  | .null => some "null"
  | .bool true => some "true"
  | .bool false => some "false"
  | .num text => some text
  | .str s => some s
  | .arr elems => (JSONVal.joinParts elems).map (String.intercalate ",")
  | .obj props => if props.any (fun p => p.1 == "toString") then none else some "[object Object]"
/-- The per-element strings of `Array.prototype.join`: `undefined` and
`null` elements contribute the empty string; `none` when the conversion of
an element throws. -/
def JSONVal.joinParts : List JSONVal → Option (List String)
  | [] => some []
  | .undefined :: rest => (JSONVal.joinParts rest).map (List.cons "")
  | .null :: rest => (JSONVal.joinParts rest).map (List.cons "")
  | v :: rest =>
    match JSONVal.toStr v, JSONVal.joinParts rest with
    | some s, some parts => some (s :: parts)
    | _, _ => none
end

/-- JavaScript truthiness (`ToBoolean`) of a body value. -/
def JSONVal.truthy : JSONVal → Bool
  | .undefined => false
  | .null => false
  | .bool b => b
  | .num text => text != "0" && text != "NaN"
  | .str s => s != ""
  | .arr _ => true
  | .obj _ => true

/-- The operator `a || b` on body values. -/
def JSONVal.or (a b : JSONVal) : JSONVal := if a.truthy then a else b

/-- Optional chaining `v?.key` for the property names read by the SDK
(`detail`, `message`): the own property of an object, `undefined` on
`null`/`undefined` and on values that carry no such property. -/
def JSONVal.optGet (v : JSONVal) (key : String) : JSONVal :=
  match v with
  | .obj props =>
    match props.find? (fun p => p.1 == key) with
    | some p => p.2
    | none => .undefined
  | _ => .undefined

/-! ## UTF-8 -/

/-- UTF-8 bytes of one scalar value. -/
def utf8EncodeChar (c : Nat) : List Nat :=
  if c < 0x80 then [c]
  else if c < 0x800 then [0xC0 + c / 64, 0x80 + c % 64]
  else if c < 0x10000 then [0xE0 + c / 4096, 0x80 + c / 64 % 64, 0x80 + c % 64]
  else [0xF0 + c / 262144, 0x80 + c / 4096 % 64, 0x80 + c / 64 % 64, 0x80 + c % 64]

/-- UTF-8 encoding of a string. -/
def utf8Encode : List Char → List Nat
  | [] => []
  | c :: cs => utf8EncodeChar c.toNat ++ utf8Encode cs

/-- State of the WHATWG UTF-8 decoder in the middle of a sequence. -/
structure Utf8Pending where
  cp : Nat
  needed : Nat
  lower : Nat
  upper : Nat

/-- What the decoder does with a byte read in its initial state. -/
inductive Utf8Step where
  | emit (c : Char)
  | pending (p : Utf8Pending)
  | invalid

/-- The decoder on a lead byte. -/
def utf8Lead (b : Nat) : Utf8Step :=
  if b ≤ 0x7F then .emit (Char.ofNat b)
  else if 0xC2 ≤ b ∧ b ≤ 0xDF then .pending ⟨b % 32, 1, 0x80, 0xBF⟩
  else if 0xE0 ≤ b ∧ b ≤ 0xEF then
    .pending ⟨b % 16, 2, if b = 0xE0 then 0xA0 else 0x80, if b = 0xED then 0x9F else 0xBF⟩
  else if 0xF0 ≤ b ∧ b ≤ 0xF4 then
    .pending ⟨b % 8, 3, if b = 0xF0 then 0x90 else 0x80, if b = 0xF4 then 0x8F else 0xBF⟩
  else .invalid

/-- U+FFFD, emitted by the decoder on malformed input. -/
def replacementChar : Char := Char.ofNat 0xFFFD

/-- The WHATWG "UTF-8 decode without BOM" algorithm. A byte that breaks a
sequence is reported as an error and then read again as a lead byte. -/
def utf8DecodeFrom : Option Utf8Pending → List Nat → List Char
  | none, [] => []
  | some _, [] => [replacementChar]
  | none, b :: bs =>
    match utf8Lead b with
    | .emit c => c :: utf8DecodeFrom none bs
    | .pending p => utf8DecodeFrom (some p) bs
    | .invalid => replacementChar :: utf8DecodeFrom none bs
  | some p, b :: bs =>
    if p.lower ≤ b ∧ b ≤ p.upper then
      if p.needed = 1 then Char.ofNat (p.cp * 64 + b % 64) :: utf8DecodeFrom none bs
      else utf8DecodeFrom (some ⟨p.cp * 64 + b % 64, p.needed - 1, 0x80, 0xBF⟩) bs
    else
      replacementChar ::
        (match utf8Lead b with
         | .emit c => c :: utf8DecodeFrom none bs
         | .pending q => utf8DecodeFrom (some q) bs
         | .invalid => replacementChar :: utf8DecodeFrom none bs)

/-- UTF-8 decode without BOM. -/
def utf8Decode (bs : List Nat) : List Char := utf8DecodeFrom none bs

/-! ## `application/x-www-form-urlencoded` -/

/-- Bytes left as they are by the urlencoded serializer: ASCII
alphanumerics and `*`, `-`, `.`, `_`. -/
def isUrlencodedSafe (b : Nat) : Bool :=
  (0x30 ≤ b && b ≤ 0x39) || (0x41 ≤ b && b ≤ 0x5A) || (0x61 ≤ b && b ≤ 0x7A) ||
    b == 0x2A || b == 0x2D || b == 0x2E || b == 0x5F

/-- Upper-case hexadecimal digit of a value below 16. -/
def hexDigit (n : Nat) : Char := Char.ofNat (if n < 10 then 0x30 + n else 0x37 + n)

/-- Value of an ASCII hexadecimal digit. -/
def hexValue (b : Nat) : Option Nat :=
  if 0x30 ≤ b ∧ b ≤ 0x39 then some (b - 0x30)
  else if 0x41 ≤ b ∧ b ≤ 0x46 then some (b - 0x37)
  else if 0x61 ≤ b ∧ b ≤ 0x66 then some (b - 0x57)
  else none

/-- Percent-encoding of one byte with "space as plus". -/
def percentEncodeByte (b : Nat) : List Char :=
  if b = 0x20 then ['+']
  else if isUrlencodedSafe b then [Char.ofNat b]
  else ['%', hexDigit (b / 16), hexDigit (b % 16)]

/-- Percent-encoding of a byte sequence. -/
def percentEncode : List Nat → List Char
  | [] => []
  | b :: bs => percentEncodeByte b ++ percentEncode bs

/-- Urlencoded form of a name or value. -/
def urlencode (s : String) : List Char := percentEncode (utf8Encode s.data)

/-- One `name=value` item of the serializer. -/
def serializePair (p : String × String) : List Char :=
  urlencode p.1 ++ '=' :: urlencode p.2

/-- The `application/x-www-form-urlencoded` serializer. -/
def serializeParams (l : List (String × String)) : String :=
  String.mk (List.intercalate ['&'] (l.map serializePair))

/-- Percent-decoding of a byte sequence; a `%` not followed by two
hexadecimal digits is kept. -/
def percentDecode : List Nat → List Nat
  | [] => []
  | [c] => [c]
  | [c, d] => [c, d]
  | c :: a :: b :: rest =>
    if c = 0x25 then
      match hexValue a, hexValue b with
      | some x, some y => (16 * x + y) :: percentDecode rest
      | _, _ => c :: percentDecode (a :: b :: rest)
    else c :: percentDecode (a :: b :: rest)

/-- The parser reads a `+` as a space. -/
def plusToSpace (b : Nat) : Nat := if b = 0x2B then 0x20 else b

/-- A name or value of the parser: `+` becomes a space, then the bytes are
percent-decoded and UTF-8 decoded. -/
def decodeComponent (bs : List Nat) : String :=
  String.mk (utf8Decode (percentDecode (bs.map plusToSpace)))

/-- One byte sequence of the parser, split at its first `=`. -/
def parsePair (bs : List Nat) : String × String :=
  (decodeComponent (bs.takeWhile (· ≠ 0x3D)), decodeComponent ((bs.dropWhile (· ≠ 0x3D)).drop 1))

/-- The `application/x-www-form-urlencoded` parser on a query string. -/
def parseParams (q : String) : List (String × String) :=
  (((utf8Encode q.data).splitOn 0x26).filter (fun bs => !bs.isEmpty)).map parsePair

/-! ## The `URL` class -/

/-- A parsed URL. `base` stands for the serialization of scheme, authority
and path; `searchParams` is the list of the associated `URLSearchParams`
object. The model splits off fragment and query as the URL parser does and
keeps `base` as written: it does not lower-case scheme and host, drop a
default port, add `/` for an empty path or reject an invalid host. It is
exact on endpoints whose scheme, host and path are in serialized form
already; the statements below speak of the query parameters of a URL and
compare bases with one another, never with the spelling of an input. -/
structure URL where
  base : String
  query : Option String
  fragment : Option String
  searchParams : List (String × String)

/-- An ASCII letter. -/
def isAsciiAlpha (c : Char) : Bool :=
  (0x41 ≤ c.toNat && c.toNat ≤ 0x5A) || (0x61 ≤ c.toNat && c.toNat ≤ 0x7A)

/-- A character allowed in a scheme after its first letter. -/
def isSchemeChar (c : Char) : Bool :=
  isAsciiAlpha c || (0x30 ≤ c.toNat && c.toNat ≤ 0x39) || c == '+' || c == '-' || c == '.'

/-- The rest of a scheme, up to its colon. -/
def schemeTail : List Char → Bool
  | [] => false
  | c :: cs => if c == ':' then true else isSchemeChar c && schemeTail cs

/-- An absolute URL starts with a scheme: a letter, scheme characters, a
colon. Without one `new URL(input)` throws a `TypeError`. -/
def hasScheme : List Char → Bool
  | [] => false
  | c :: cs => isAsciiAlpha c && schemeTail cs

/-- Splits a string at the first occurrence of a delimiter. -/
def splitFirst (d : Char) : List Char → List Char × Option (List Char)
  | [] => ([], none)
  | c :: cs =>
    if c == d then ([], some cs)
    else ((splitFirst d cs).1.cons c, (splitFirst d cs).2)

/-- The constructor `new URL(input)`; `none` when it throws. -/
def URL.parse (input : String) : Option URL :=
  if hasScheme input.data then
    let byHash := splitFirst '#' input.data
    let byQuery := splitFirst '?' byHash.1
    some { base := String.mk byQuery.1
           query := byQuery.2.map String.mk
           fragment := byHash.2.map String.mk
           searchParams := match byQuery.2 with
             | some q => parseParams (String.mk q)
             | none => [] }
  else none

/-- The method `url.searchParams.append(name, value)`: the pair is added last
and the URL's query is set to the serialization of the list. -/
def URL.append (u : URL) (name value : String) : URL :=
  let l := u.searchParams ++ [(name, value)]
  let q := serializeParams l
  { u with searchParams := l, query := if q = "" then none else some q }

/-- The method `url.toString()`, the URL serializer. -/
def URL.toString (u : URL) : String :=
  u.base ++ (match u.query with | some q => "?" ++ q | none => "") ++
    (match u.fragment with | some f => "#" ++ f | none => "")

/-- The query parameters carried by a URL string: the `searchParams` of the
URL parsed from it. -/
def queryParams (url : String) : List (String × String) :=
  match URL.parse url with
  | some u => u.searchParams
  | none => []

/-- The values of the query parameters named `name`, in order. -/
def paramValues (url : String) (name : String) : List String :=
  ((queryParams url).filter (fun p => p.1 == name)).map Prod.snd

/-! ## Errors, responses and `fetch` -/

/-- An instance of the SDK's class `NewsAPIError`. -/
structure NewsAPIError where
  name : String
  statusCode : Nat
  message : String
  deriving DecidableEq, Repr

/-- A thrown value (the reason of a rejected promise): a built-in error
object (`Error`, `TypeError`, `SyntaxError`, `RangeError`, ...) with its name
and message, or an instance of `NewsAPIError`. -/
inductive Thrown where
  | error (name message : String)
  | newsAPIError (e : NewsAPIError)
  deriving DecidableEq, Repr

/-- The message of the `TypeError` that a failing `ToString` conversion
throws (the text is chosen by the engine). -/
def toPrimitiveErrorMessage : String := "Cannot convert object to primitive value"

/-- The constructor `new NewsAPIError(statusCode, message)`: `super(message)`
stores `ToString(message)` unless the message is `undefined`, and throws a
`TypeError` when that conversion throws. -/
def NewsAPIError.new (statusCode : Nat) (message : JSONVal) : Except Thrown NewsAPIError :=
  match message with
  | .undefined => .ok { name := "AllNewsAPIError", statusCode := statusCode, message := "" }
  | m =>
    match m.toStr with
    | some text => .ok { name := "AllNewsAPIError", statusCode := statusCode, message := text }
    | none => .error (.error "TypeError" toPrimitiveErrorMessage)

/-- A binary payload (`Blob`). -/
structure Blob where
  bytes : List Nat
  deriving DecidableEq, Repr

/-- A `Response`: its status and the settlement of each body-reading
method. -/
structure Response where
  status : Nat
  json : Except Thrown JSONVal
  blob : Except Thrown Blob
  text : Except Thrown String

/-- The getter `response.ok`: the status is in the range 200 to 299. -/
def Response.ok (r : Response) : Bool := 200 ≤ r.status && r.status ≤ 299

/-- The network: the settlement of `fetch(url)` for every URL. -/
abbrev Fetch := String → Except Thrown Response

/-- What a request resolves to: a decoded JSON value, a binary payload or a
text payload. -/
inductive Payload where
  | json (v : JSONVal)
  | blob (b : Blob)
  | text (s : String)

/-- The observable behaviour of an SDK call: how it settles and the URLs it
requested from the network, in order. -/
structure Outcome (α : Type) where
  result : Except Thrown α
  requests : List String

/-! ## The client -/

/-- An instance of the SDK's class `NewsAPI`. -/
structure NewsAPI where
  apiKey : JSVal
  baseUrl : JSVal
  searchEndpoint : String
  headlinesEndpoint : String

/-- The constructor `new NewsAPI(apiKey, config)`. -/
def NewsAPI.new (apiKey : JSVal) (config : JSObject) : Outcome NewsAPI :=
  if !apiKey.truthy then
    { result := .error (.error "Error" "API key is required"), requests := [] }
  else
    let baseUrl := (config.get "baseUrl").or (.str "https://api.allnewsapi.com")
    { result := .ok
        { apiKey := apiKey
          baseUrl := baseUrl
          searchEndpoint := baseUrl.toStr ++ "/v1/search"
          headlinesEndpoint := baseUrl.toStr ++ "/v1/headlines" }
      requests := [] }

/-- The body of the `forEach` callback of `_buildUrl` on one entry. -/
def NewsAPI.appendEntry (url : URL) (entry : String × JSVal) : URL :=
  if entry.2.isPresent then
    match entry.2 with
    | .arr elems => url.append entry.1 (JSVal.join elems ",")
    | value => url.append entry.1 value.toStr
  else url

/-- The method `_buildUrl(params, endpoint)`. -/
def NewsAPI._buildUrl (self : NewsAPI) (params : JSObject) (endpoint : String) :
    Except Thrown String :=
  match URL.parse endpoint with
  | none => .error (.error "TypeError" "Invalid URL")
  | some url =>
    let url := url.append "apikey" self.apiKey.toStr
    let url := params.foldl NewsAPI.appendEntry url
    .ok url.toString

/-- The table `errorMessages` of `_getErrorMessage`, keyed by status code. -/
def NewsAPI.errorMessages : List (Nat × JSVal) :=
  [(400, .str "Bad Request - Your request is invalid"),
   (401, .str "Unauthorized - Invalid API Key or Account status is inactive"),
   (403, .str "Forbidden - Your account is not authorized to make that request"),
   (429, .str ("Too Many Requests - You have reached your daily request limit. " ++
      "The next reset is at 00:00 UTC")),
   (500, .str ("Internal Server Error - We had a problem with our server. " ++
      "Please try again later")),
   (503, .str ("Service Unavailable - We\x27re temporarily offline for maintenance. " ++
      "Please try again later"))]

/-- The method `_getErrorMessage(statusCode)`. -/
def NewsAPI._getErrorMessage (statusCode : Nat) : JSVal :=
  (match NewsAPI.errorMessages.lookup statusCode with
   | some m => m
   | none => .undefined).or (.str "Unknown error occurred")

/-- The value `errorData` of `_makeRequest`:
`await response.json().catch(() => ({}))`. -/
def NewsAPI.errorData (response : Response) : JSONVal :=
  match response.json with
  | .ok v => v
  | .error _ => .obj []

/-- The message argument of the error raised on a non-2xx response:
`errorData?.detail?.message || errorData?.message ||
this._getErrorMessage(response.status)`. -/
def NewsAPI.errorMessage (errorData : JSONVal) (status : Nat) : JSONVal :=
  ((errorData.optGet "detail").optGet "message").or
    ((errorData.optGet "message").or (.str (NewsAPI._getErrorMessage status).toStr))

/-- The `try` block of `_makeRequest`. -/
def NewsAPI.attempt (fetch : Fetch) (params : JSObject) (url : String) :
    Except Thrown Payload :=
  match fetch url with
  | .error e => .error e
  | .ok response =>
    if !response.ok then
      match NewsAPIError.new response.status
        (NewsAPI.errorMessage (NewsAPI.errorData response) response.status) with
      | .ok error => .error (.newsAPIError error)
      | .error thrown => .error thrown
    else
      let format := (params.get "format").or (.str "json")
      if format.isStr "json" then
        response.json.map Payload.json
      else if format.isStr "csv" || format.isStr "xlsx" then
        response.blob.map Payload.blob
      else
        response.text.map Payload.text

/-- The `catch` block of `_makeRequest`. -/
def NewsAPI.recover : Except Thrown Payload → Except Thrown Payload
  | .ok v => .ok v
  | .error (.newsAPIError e) => .error (.newsAPIError e)
  | .error (.error _ message) =>
    match NewsAPIError.new 500 (.str ("Request failed: " ++ message)) with
    | .ok error => .error (.newsAPIError error)
    | .error thrown => .error thrown

/-- The method `_makeRequest(params, endpoint)`. -/
def NewsAPI._makeRequest (self : NewsAPI) (fetch : Fetch) (params : JSObject)
    (endpoint : String) : Outcome Payload :=
  match self._buildUrl params endpoint with
  | .error e => { result := .error e, requests := [] }
  | .ok url => { result := NewsAPI.recover (NewsAPI.attempt fetch params url), requests := [url] }

/-- The statement `if (options.key instanceof Date) options.key =
options.key.toISOString()`; throws a `RangeError` on an invalid date. -/
def NewsAPI.formatDate (options : JSObject) (key : String) : Except Thrown JSObject :=
  match options.get key with
  | .date d =>
    match d.iso with
    | some s => .ok (options.set key (.str s))
    | none => .error (.error "RangeError" "Invalid time value")
  | _ => .ok options

/-- The method `search(options)`. -/
def NewsAPI.search (self : NewsAPI) (fetch : Fetch) (options : JSObject) : Outcome Payload :=
  match NewsAPI.formatDate options "startDate" with
  | .error e => { result := .error e, requests := [] }
  | .ok options =>
    match NewsAPI.formatDate options "endDate" with
    | .error e => { result := .error e, requests := [] }
    | .ok options => self._makeRequest fetch options self.searchEndpoint

/-- The method `headlines(options)`. -/
def NewsAPI.headlines (self : NewsAPI) (fetch : Fetch) (options : JSObject) : Outcome Payload :=
  match NewsAPI.formatDate options "startDate" with
  | .error e => { result := .error e, requests := [] }
  | .ok options =>
    match NewsAPI.formatDate options "endDate" with
    | .error e => { result := .error e, requests := [] }
    | .ok options => self._makeRequest fetch options self.headlinesEndpoint

/-! ## Predicates and functions used in the statements and proofs -/

/-- The bytes that a serialized name or value consists of: ASCII, and none
of `&`, `=`, `#`, `?`. -/
def IsUrlencodedByte (n : Nat) : Prop :=
  n < 0x80 ∧ n ≠ 0x26 ∧ n ≠ 0x3D ∧ n ≠ 0x23 ∧ n ≠ 0x3F

/-- The base of a parsed URL: it starts with a scheme and holds neither `?`
nor `#`. -/
def URL.Clean (u : URL) : Prop :=
  hasScheme u.base.data = true ∧ '?' ∉ u.base.data ∧ '#' ∉ u.base.data

/-- The name/value pairs that `_buildUrl` appends for a parameter mapping:
one per entry whose value is neither `null` nor `undefined`, in order. -/
def NewsAPI.entryPairs : JSObject → List (String × String)
  | [] => []
  | entry :: rest =>
    if entry.2.isPresent then (entry.1, entry.2.toStr) :: NewsAPI.entryPairs rest
    else NewsAPI.entryPairs rest

/-- A URL whose query is the serialization of its parameter list. -/
def URL.Synced (u : URL) : Prop :=
  u.searchParams ≠ [] ∧ u.query = some (serializeParams u.searchParams)

/-! ## Sample data -/

/-- The client that `new NewsAPI("k")` constructs: key `k`, production
endpoints. -/
def sampleClient : NewsAPI :=
  { apiKey := .str "k"
    baseUrl := .str "https://api.allnewsapi.com"
    searchEndpoint := "https://api.allnewsapi.com/v1/search"
    headlinesEndpoint := "https://api.allnewsapi.com/v1/headlines" }

/-- The parsed production search endpoint. -/
def sampleSearchURL : URL :=
  { base := "https://api.allnewsapi.com/v1/search", query := none, fragment := none,
    searchParams := [] }

/-- The parsed production headlines endpoint. -/
def sampleHeadlinesURL : URL :=
  { base := "https://api.allnewsapi.com/v1/headlines", query := none, fragment := none,
    searchParams := [] }

/-- A 200 response whose JSON body is `{"articles": []}`, whose binary
payload is the byte `a` and whose text is `a`. -/
def sampleResponse : Response :=
  { status := 200
    json := .ok (.obj [("articles", .arr [])])
    blob := .ok { bytes := [0x61] }
    text := .ok "a" }

/-- A 429 response with the JSON body `body`. -/
def errorResponse (body : JSONVal) : Response :=
  { status := 429
    json := .ok body
    blob := .error (.error "TypeError" "body stream already read")
    text := .error (.error "TypeError" "body stream already read") }

/-- A 503 response whose body is not JSON. -/
def unparseableResponse : Response :=
  { status := 503
    json := .error (.error "SyntaxError" "Unexpected token < in JSON at position 0")
    blob := .error (.error "TypeError" "body stream already read")
    text := .error (.error "TypeError" "body stream already read") }

/-- Options with a date-typed `startDate` and a string `endDate`. -/
def sampleOptions : JSObject :=
  [("q", .str "google"),
   ("startDate", .date { iso := some "2024-01-01T00:00:00.000Z",
                         text := "Mon Jan 01 2024 00:00:00 GMT+0000" }),
   ("endDate", .str "2024-02-01")]

/-! ## UTF-8 round trip -/

theorem char_valid_toNat (c : Char) :
    c.toNat < 0xD800 ∨ (0xDFFF < c.toNat ∧ c.toNat < 0x110000) := by
  have h := c.valid
  simp only [UInt32.isValidChar, Nat.isValidChar] at h
  exact h

theorem toNat_ofNat_small (n : Nat) (h : n < 0xD800) : (Char.ofNat n).toNat = n := by
  have hv : n.isValidChar := Or.inl h
  unfold Char.ofNat
  rw [dif_pos hv]
  simp only [Char.ofNatAux, Char.toNat]
  show (UInt32.ofNat' n _).toNat = n
  simp [UInt32.ofNat', UInt32.toNat]

/-- Decoding the bytes of one character yields that character. -/
theorem utf8DecodeFrom_encodeChar (c : Char) (rest : List Nat) :
    utf8DecodeFrom none (utf8EncodeChar c.toNat ++ rest) = c :: utf8DecodeFrom none rest := by
  have hv := char_valid_toNat c
  have hc : Char.ofNat c.toNat = c := Char.ofNat_toNat c
  generalize c.toNat = n at hv hc
  subst hc
  unfold utf8EncodeChar
  by_cases h1 : n < 0x80
  · have e : utf8Lead n = .emit (Char.ofNat n) := by
      unfold utf8Lead; rw [if_pos (by omega)]
    simp only [if_pos h1, List.cons_append, List.nil_append, utf8DecodeFrom, e]
  · by_cases h2 : n < 0x800
    · have e : utf8Lead (0xC0 + n / 64) = .pending ⟨(0xC0 + n / 64) % 32, 1, 0x80, 0xBF⟩ := by
        unfold utf8Lead; rw [if_neg (by omega), if_pos (by omega)]
      simp only [if_neg h1, if_pos h2, List.cons_append, List.nil_append, utf8DecodeFrom, e]
      rw [if_pos (by omega)]
      simp only [if_true]
      congr 2
      omega
    · by_cases h3 : n < 0x10000
      · have e : utf8Lead (0xE0 + n / 4096) = .pending ⟨(0xE0 + n / 4096) % 16, 2,
            if 0xE0 + n / 4096 = 0xE0 then 0xA0 else 0x80,
            if 0xE0 + n / 4096 = 0xED then 0x9F else 0xBF⟩ := by
          unfold utf8Lead; rw [if_neg (by omega), if_neg (by omega), if_pos (by omega)]
        simp only [if_neg h1, if_neg h2, if_pos h3, List.cons_append, List.nil_append,
          utf8DecodeFrom, e]
        rw [if_pos (by split_ifs <;> omega), if_neg (by decide), if_pos (by omega)]
        simp only [Nat.add_one_sub_one, if_true]
        congr 2
        omega
      · have e : utf8Lead (0xF0 + n / 262144) = .pending ⟨(0xF0 + n / 262144) % 8, 3,
            if 0xF0 + n / 262144 = 0xF0 then 0x90 else 0x80,
            if 0xF0 + n / 262144 = 0xF4 then 0x8F else 0xBF⟩ := by
          unfold utf8Lead
          rw [if_neg (by omega), if_neg (by omega), if_neg (by omega), if_pos (by omega)]
        simp only [if_neg h1, if_neg h2, if_neg h3, List.cons_append, List.nil_append,
          utf8DecodeFrom, e]
        rw [if_pos (by split_ifs <;> omega), if_neg (by decide), if_pos (by omega),
          if_neg (by decide), if_pos (by omega)]
        simp only [Nat.add_one_sub_one, if_true]
        congr 2
        omega

/-- UTF-8 decoding inverts UTF-8 encoding. -/
theorem utf8Decode_encode (cs : List Char) : utf8Decode (utf8Encode cs) = cs := by
  unfold utf8Decode
  induction cs with
  | nil => rfl
  | cons c cs ih => rw [utf8Encode, utf8DecodeFrom_encodeChar, ih]

theorem utf8EncodeChar_lt (c : Char) : ∀ b ∈ utf8EncodeChar c.toNat, b < 256 := by
  have hv := char_valid_toNat c
  generalize c.toNat = n at hv
  intro b hb
  unfold utf8EncodeChar at hb
  split_ifs at hb <;>
    simp only [List.mem_cons, List.mem_singleton, List.not_mem_nil, or_false] at hb <;> omega

theorem utf8Encode_lt (cs : List Char) : ∀ b ∈ utf8Encode cs, b < 256 := by
  induction cs with
  | nil => intro b hb; cases hb
  | cons c cs ih =>
    intro b hb
    rw [utf8Encode, List.mem_append] at hb
    exact hb.elim (utf8EncodeChar_lt c b) (ih b)

/-- On ASCII text the UTF-8 bytes are the character codes. -/
theorem utf8Encode_ascii (cs : List Char) (h : ∀ c ∈ cs, c.toNat < 0x80) :
    utf8Encode cs = cs.map Char.toNat := by
  induction cs with
  | nil => rfl
  | cons c cs ih =>
    have hc := h c (List.mem_cons_self c cs)
    rw [utf8Encode, ih (fun d hd => h d (List.mem_cons_of_mem c hd)), utf8EncodeChar,
      if_pos hc]
    rfl

/-! ## Percent-encoding round trip -/

theorem hexDigit_toNat (n : Nat) (h : n < 16) :
    (hexDigit n).toNat = if n < 10 then 0x30 + n else 0x37 + n := by
  unfold hexDigit
  apply toNat_ofNat_small
  split_ifs <;> omega

theorem hexValue_hexDigit (n : Nat) (h : n < 16) : hexValue (hexDigit n).toNat = some n := by
  rw [hexDigit_toNat n h]
  unfold hexValue
  by_cases h10 : n < 10
  · rw [if_pos h10, if_pos (by omega)]
    congr 1
    omega
  · rw [if_neg h10, if_neg (by omega), if_pos (by omega)]
    congr 1
    omega

theorem percentDecode_cons_ne (c : Nat) (r : List Nat) (h : c ≠ 0x25) :
    percentDecode (c :: r) = c :: percentDecode r := by
  match r with
  | [] => rfl
  | [d] => rfl
  | d :: e :: r2 => rw [percentDecode, if_neg h]

theorem percentDecode_hex (x y : Nat) (r : List Nat) (hx : x < 16) (hy : y < 16) :
    percentDecode (0x25 :: (hexDigit x).toNat :: (hexDigit y).toNat :: r) =
      (16 * x + y) :: percentDecode r := by
  rw [percentDecode, if_pos rfl, hexValue_hexDigit x hx, hexValue_hexDigit y hy]

theorem isUrlencodedSafe_bounds (b : Nat) (h : isUrlencodedSafe b = true) :
    b < 0x80 ∧ 0x2A ≤ b ∧ b ≠ 0x2B ∧ b ≠ 0x3D ∧ b ≠ 0x3F := by
  unfold isUrlencodedSafe at h
  simp only [Bool.or_eq_true, Bool.and_eq_true, decide_eq_true_eq, beq_iff_eq] at h
  omega

theorem percentEncodeByte_chars (b : Nat) (hb : b < 256) :
    ∀ c ∈ percentEncodeByte b, IsUrlencodedByte c.toNat := by
  intro c hc
  unfold percentEncodeByte at hc
  split_ifs at hc with h1 h2
  · rw [List.mem_singleton] at hc
    subst hc
    unfold IsUrlencodedByte
    decide
  · rw [List.mem_singleton] at hc
    subst hc
    have hs := isUrlencodedSafe_bounds b h2
    rw [toNat_ofNat_small b (by omega)]
    unfold IsUrlencodedByte
    omega
  · simp only [List.mem_cons, List.mem_singleton, List.not_mem_nil, or_false] at hc
    rcases hc with hc | hc | hc
    · subst hc
      unfold IsUrlencodedByte
      decide
    · subst hc
      rw [hexDigit_toNat _ (by omega)]
      unfold IsUrlencodedByte
      split_ifs <;> omega
    · subst hc
      rw [hexDigit_toNat _ (Nat.mod_lt b (by decide))]
      unfold IsUrlencodedByte
      split_ifs <;> omega

theorem percentEncode_chars (bs : List Nat) (h : ∀ b ∈ bs, b < 256) :
    ∀ c ∈ percentEncode bs, IsUrlencodedByte c.toNat := by
  induction bs with
  | nil => intro c hc; cases hc
  | cons b bs ih =>
    intro c hc
    rw [percentEncode, List.mem_append] at hc
    rcases hc with hc | hc
    · exact percentEncodeByte_chars b (h b (List.mem_cons_self b bs)) c hc
    · exact ih (fun d hd => h d (List.mem_cons_of_mem b hd)) c hc

/-- Percent-decoding (after reading `+` as a space) inverts percent-encoding. -/
theorem percentDecode_encode (bs : List Nat) (h : ∀ b ∈ bs, b < 256) :
    percentDecode (((percentEncode bs).map Char.toNat).map plusToSpace) = bs := by
  induction bs with
  | nil => rfl
  | cons b bs ih =>
    have hb := h b (List.mem_cons_self b bs)
    have ih2 := ih (fun d hd => h d (List.mem_cons_of_mem b hd))
    rw [percentEncode, List.map_append, List.map_append]
    unfold percentEncodeByte
    split_ifs with h1 h2
    · subst h1
      simp only [List.map_cons, List.map_nil, List.cons_append, List.nil_append]
      have hp : plusToSpace (Char.toNat (Char.ofNat 43)) = 0x20 := by decide
      show percentDecode (plusToSpace (Char.toNat (Char.ofNat 43)) :: _) = _
      rw [hp, percentDecode_cons_ne _ _ (by decide), ih2]
    · have hs := isUrlencodedSafe_bounds b h2
      simp only [List.map_cons, List.map_nil, List.cons_append, List.nil_append]
      rw [toNat_ofNat_small b (by omega)]
      have hp : plusToSpace b = b := by unfold plusToSpace; rw [if_neg (by omega)]
      rw [hp, percentDecode_cons_ne _ _ (by omega), ih2]
    · simp only [List.map_cons, List.map_nil, List.cons_append, List.nil_append]
      have hx : b / 16 < 16 := by omega
      have hy : b % 16 < 16 := Nat.mod_lt b (by decide)
      have px : plusToSpace (hexDigit (b / 16)).toNat = (hexDigit (b / 16)).toNat := by
        unfold plusToSpace
        rw [if_neg]
        rw [hexDigit_toNat _ hx]
        split_ifs <;> omega
      have py : plusToSpace (hexDigit (b % 16)).toNat = (hexDigit (b % 16)).toNat := by
        unfold plusToSpace
        rw [if_neg]
        rw [hexDigit_toNat _ hy]
        split_ifs <;> omega
      have pp : plusToSpace (Char.toNat (Char.ofNat 37)) = 0x25 := by decide
      show percentDecode (plusToSpace (Char.toNat (Char.ofNat 37)) :: _) = _
      rw [pp, px, py, percentDecode_hex _ _ _ hx hy, ih2]
      congr 1
      omega

/-- A serialized name or value decodes to the original string. -/
theorem decodeComponent_urlencode (s : String) :
    decodeComponent ((urlencode s).map Char.toNat) = s := by
  unfold decodeComponent urlencode
  rw [percentDecode_encode _ (utf8Encode_lt s.data), utf8Decode_encode]

theorem urlencode_chars (s : String) : ∀ c ∈ urlencode s, IsUrlencodedByte c.toNat :=
  percentEncode_chars _ (utf8Encode_lt s.data)

/-! ## Serializer and parser round trip -/

theorem map_intercalate {α β : Type} (f : α → β) (sep : List α) (xs : List (List α)) :
    (List.intercalate sep xs).map f = List.intercalate (sep.map f) (xs.map (List.map f)) := by
  unfold List.intercalate
  rw [List.map_flatten]
  congr 1
  induction xs with
  | nil => rfl
  | cons x xs ih =>
    cases xs with
    | nil => rfl
    | cons y ys =>
      simp only [List.map_cons, List.intersperse] at ih ⊢
      rw [ih]

theorem mem_intercalate {α : Type} (sep : List α) (xs : List (List α)) (a : α)
    (h : a ∈ List.intercalate sep xs) : a ∈ sep ∨ ∃ x ∈ xs, a ∈ x := by
  unfold List.intercalate at h
  induction xs with
  | nil => cases h
  | cons x xs ih =>
    cases xs with
    | nil =>
      simp only [List.intersperse, List.flatten, List.append_nil] at h
      exact Or.inr ⟨x, List.mem_cons_self x [], h⟩
    | cons y ys =>
      simp only [List.intersperse, List.flatten, List.mem_append] at h ih
      rcases h with h | h | h
      · exact Or.inr ⟨x, List.mem_cons_self x _, h⟩
      · exact Or.inl h
      · rcases ih h with h2 | ⟨z, hz, hz2⟩
        · exact Or.inl h2
        · exact Or.inr ⟨z, List.mem_cons_of_mem x hz, hz2⟩

theorem serializePair_bytes (p : String × String) :
    (serializePair p).map Char.toNat =
      (urlencode p.1).map Char.toNat ++ 0x3D :: (urlencode p.2).map Char.toNat := by
  unfold serializePair
  rw [List.map_append, List.map_cons]
  rfl

theorem urlencode_bytes_ne (s : String) (n : Nat) (h : ¬ IsUrlencodedByte n) :
    n ∉ (urlencode s).map Char.toNat := by
  intro hm
  obtain ⟨c, hc, rfl⟩ := List.mem_map.mp hm
  exact h (urlencode_chars s c hc)

theorem parsePair_serializePair (p : String × String) :
    parsePair ((serializePair p).map Char.toNat) = p := by
  have hne : ∀ a ∈ (urlencode p.1).map Char.toNat, (decide (a ≠ 0x3D)) = true := by
    intro a ha
    rw [decide_eq_true_eq]
    intro h
    subst h
    exact urlencode_bytes_ne p.1 0x3D (by unfold IsUrlencodedByte; omega) ha
  unfold parsePair
  rw [serializePair_bytes, List.takeWhile_append_of_pos hne, List.dropWhile_append_of_pos hne,
    List.takeWhile_cons_of_neg (by decide), List.dropWhile_cons_of_neg (by decide),
    List.append_nil, List.drop_one, List.tail_cons, decodeComponent_urlencode,
    decodeComponent_urlencode]

theorem serializePair_chars (p : String × String) :
    ∀ c ∈ serializePair p, c.toNat < 0x80 ∧ c.toNat ≠ 0x26 ∧ c.toNat ≠ 0x23 ∧ c.toNat ≠ 0x3F := by
  intro c hc
  unfold serializePair at hc
  rw [List.mem_append, List.mem_cons] at hc
  rcases hc with hc | hc | hc
  · have := urlencode_chars p.1 c hc
    unfold IsUrlencodedByte at this
    omega
  · subst hc
    decide
  · have := urlencode_chars p.2 c hc
    unfold IsUrlencodedByte at this
    omega

theorem serializeParams_chars (l : List (String × String)) :
    ∀ c ∈ (serializeParams l).data, c.toNat < 0x80 ∧ c.toNat ≠ 0x23 ∧ c.toNat ≠ 0x3F := by
  intro c hc
  rcases mem_intercalate _ _ c hc with h | ⟨x, hx, hcx⟩
  · rw [List.mem_singleton] at h
    subst h
    decide
  · obtain ⟨p, _, rfl⟩ := List.mem_map.mp hx
    have := serializePair_chars p c hcx
    omega

/-- The urlencoded parser inverts the urlencoded serializer. -/
theorem parseParams_serializeParams (l : List (String × String)) :
    parseParams (serializeParams l) = l := by
  unfold parseParams
  rw [utf8Encode_ascii _ (fun c hc => (serializeParams_chars l c hc).1)]
  show (List.filter _ (List.splitOn 0x26
    ((List.intercalate [Char.ofNat 38] (l.map serializePair)).map Char.toNat))).map parsePair = l
  rw [map_intercalate]
  cases l with
  | nil => rfl
  | cons p ps =>
    have hsep : ∀ x ∈ ((p :: ps).map serializePair).map (List.map Char.toNat), 0x26 ∉ x := by
      intro x hx hm
      obtain ⟨y, hy, rfl⟩ := List.mem_map.mp hx
      obtain ⟨q, _, rfl⟩ := List.mem_map.mp hy
      obtain ⟨c, hc, hc2⟩ := List.mem_map.mp hm
      exact (serializePair_chars q c hc).2.1 hc2
    have hsplit := List.splitOn_intercalate _ 0x26 hsep (by simp)
    show (List.filter _ (List.splitOn 0x26 (List.intercalate [0x26] _))).map parsePair = _
    rw [hsplit, List.filter_eq_self.mpr, List.map_map, List.map_map]
    · conv_rhs => rw [← List.map_id (p :: ps)]
      apply List.map_congr_left
      intro q _
      exact parsePair_serializePair q
    · intro x hx
      obtain ⟨y, hy, rfl⟩ := List.mem_map.mp hx
      obtain ⟨q, _, rfl⟩ := List.mem_map.mp hy
      rw [serializePair_bytes]
      cases (urlencode q.1).map Char.toNat <;> rfl

theorem serializeParams_eq_empty (l : List (String × String)) (h : serializeParams l = "") :
    l = [] := by
  have := parseParams_serializeParams l
  rw [h] at this
  exact this.symm

/-! ## Parsing a serialized URL -/

theorem splitFirst_not_mem (d : Char) (cs : List Char) (h : d ∉ cs) :
    splitFirst d cs = (cs, none) := by
  induction cs with
  | nil => rfl
  | cons c cs ih =>
    rw [List.mem_cons, not_or] at h
    have hc : (c == d) = false := by
      rw [beq_eq_false_iff_ne]
      exact fun e => h.1 e.symm
    rw [splitFirst, hc, ih h.2]
    rfl

theorem splitFirst_append (d : Char) (a b : List Char) (h : d ∉ a) :
    splitFirst d (a ++ d :: b) = (a, some b) := by
  induction a with
  | nil =>
    rw [List.nil_append, splitFirst]
    simp
  | cons c cs ih =>
    rw [List.mem_cons, not_or] at h
    have hc : (c == d) = false := by
      rw [beq_eq_false_iff_ne]
      exact fun e => h.1 e.symm
    rw [List.cons_append, splitFirst, hc, ih h.2]
    rfl

theorem splitFirst_fst_not_mem (d : Char) (cs : List Char) : d ∉ (splitFirst d cs).1 := by
  induction cs with
  | nil => exact List.not_mem_nil d
  | cons c cs ih =>
    rw [splitFirst]
    by_cases hc : (c == d) = true
    · rw [if_pos hc]
      exact List.not_mem_nil d
    · rw [if_neg hc]
      intro hm
      rcases List.mem_cons.mp hm with h | h
      · exact hc (beq_iff_eq.mpr h.symm)
      · exact ih h

theorem splitFirst_fst_subset (d : Char) (cs : List Char) :
    ∀ c ∈ (splitFirst d cs).1, c ∈ cs := by
  induction cs with
  | nil => intro c hc; cases hc
  | cons x cs ih =>
    intro c hc
    rw [splitFirst] at hc
    by_cases hx : (x == d) = true
    · rw [if_pos hx] at hc
      cases hc
    · rw [if_neg hx] at hc
      rcases List.mem_cons.mp hc with h | h
      · exact h ▸ List.mem_cons_self x cs
      · exact List.mem_cons_of_mem x (ih c h)

theorem schemeTail_splitFirst (d : Char) (hd : isSchemeChar d = false) (hd2 : d ≠ ':')
    (cs : List Char) (h : schemeTail cs = true) : schemeTail (splitFirst d cs).1 = true := by
  induction cs with
  | nil => cases h
  | cons c cs ih =>
    rw [schemeTail] at h
    rw [splitFirst]
    by_cases hc : (c == ':') = true
    · have hcd : (c == d) = false := by
        rw [beq_eq_false_iff_ne]
        rw [beq_iff_eq] at hc
        exact fun e => hd2 (e ▸ hc)
      rw [hcd]
      simp only [Bool.false_eq_true, if_false, List.cons, schemeTail, hc, if_true]
    · rw [if_neg hc, Bool.and_eq_true] at h
      have hcd : (c == d) = false := by
        rw [beq_eq_false_iff_ne]
        intro e
        rw [e, hd] at h
        exact Bool.false_ne_true h.1
      rw [hcd]
      simp only [Bool.false_eq_true, if_false, List.cons, schemeTail, if_neg hc,
        Bool.and_eq_true]
      exact ⟨h.1, ih h.2⟩

theorem hasScheme_splitFirst (d : Char) (hd : isSchemeChar d = false) (hd2 : d ≠ ':')
    (cs : List Char) (h : hasScheme cs = true) : hasScheme (splitFirst d cs).1 = true := by
  cases cs with
  | nil => cases h
  | cons c cs =>
    rw [hasScheme, Bool.and_eq_true] at h
    have hcd : (c == d) = false := by
      rw [beq_eq_false_iff_ne]
      intro e
      have h1 := h.1
      rw [e] at h1
      have : isSchemeChar d = true := by
        unfold isSchemeChar
        rw [h1]
        rfl
      rw [hd] at this
      exact Bool.false_ne_true this
    rw [splitFirst, hcd]
    simp only [Bool.false_eq_true, if_false, List.cons, hasScheme, Bool.and_eq_true]
    exact ⟨h.1, schemeTail_splitFirst d hd hd2 cs h.2⟩

theorem schemeTail_append (a b : List Char) (h : schemeTail a = true) :
    schemeTail (a ++ b) = true := by
  induction a with
  | nil => cases h
  | cons c cs ih =>
    rw [schemeTail] at h
    rw [List.cons_append, schemeTail]
    by_cases hc : (c == ':') = true
    · rw [if_pos hc]
    · rw [if_neg hc, Bool.and_eq_true] at h
      rw [if_neg hc, Bool.and_eq_true]
      exact ⟨h.1, ih h.2⟩

theorem hasScheme_append (a b : List Char) (h : hasScheme a = true) :
    hasScheme (a ++ b) = true := by
  cases a with
  | nil => cases h
  | cons c cs =>
    rw [hasScheme, Bool.and_eq_true] at h
    rw [List.cons_append, hasScheme, Bool.and_eq_true]
    exact ⟨h.1, schemeTail_append cs b h.2⟩

theorem URL.parse_clean (input : String) (u : URL) (h : URL.parse input = some u) :
    u.Clean := by
  unfold URL.parse at h
  split_ifs at h with hs
  rw [Option.some.injEq] at h
  subst h
  refine ⟨?_, ?_, ?_⟩
  · exact hasScheme_splitFirst _ (by decide) (by decide) _
      (hasScheme_splitFirst _ (by decide) (by decide) _ hs)
  · exact splitFirst_fst_not_mem _ _
  · intro hm
    exact splitFirst_fst_not_mem '#' input.data (splitFirst_fst_subset '?' _ _ hm)

/-- Parsing the serialization of a URL whose query holds no `#`. -/
theorem URL.parse_toString (u : URL) (q : String) (hu : u.Clean) (hq : '#' ∉ q.data)
    (hquery : u.query = some q) :
    URL.parse u.toString =
      some { base := u.base, query := some q, fragment := u.fragment,
             searchParams := parseParams q } := by
  obtain ⟨h1, h2, h3⟩ := hu
  have hdata : u.toString.data = (u.base.data ++ '?' :: q.data) ++
      (match u.fragment with | some f => '#' :: f.data | none => []) := by
    unfold URL.toString
    rw [hquery]
    cases u.fragment <;> simp [String.data_append]
  have hsch : hasScheme u.toString.data = true := by
    rw [hdata, List.append_assoc]
    exact hasScheme_append _ _ h1
  have hnh : '#' ∉ u.base.data ++ '?' :: q.data := by
    intro hm
    rcases List.mem_append.mp hm with h | h
    · exact h3 h
    · rcases List.mem_cons.mp h with h | h
      · exact absurd h (by decide)
      · exact hq h
  unfold URL.parse
  rw [if_pos hsch, hdata]
  cases hf : u.fragment with
  | none =>
    simp only [List.append_nil]
    rw [splitFirst_not_mem _ _ hnh, splitFirst_append _ _ _ h2]
    rfl
  | some f =>
    simp only []
    rw [splitFirst_append _ _ _ hnh, splitFirst_append _ _ _ h2]
    rfl

/-! ## The query of a built URL -/

theorem NewsAPI.appendEntry_eq (url : URL) (entry : String × JSVal) :
    NewsAPI.appendEntry url entry =
      if entry.2.isPresent then url.append entry.1 entry.2.toStr else url := by
  unfold NewsAPI.appendEntry
  split_ifs with h
  · split
    · next elems he => rw [he]; simp only [JSVal.join, JSVal.toStr]
    · rfl
  · rfl

theorem URL.append_spec (u : URL) (name value : String) :
    (u.append name value).Synced ∧ (u.append name value).base = u.base ∧
      (u.append name value).fragment = u.fragment ∧
      (u.append name value).searchParams = u.searchParams ++ [(name, value)] := by
  refine ⟨⟨?_, ?_⟩, rfl, rfl, rfl⟩
  · show u.searchParams ++ [(name, value)] ≠ []
    simp
  · show (if serializeParams (u.searchParams ++ [(name, value)]) = "" then none
      else some (serializeParams (u.searchParams ++ [(name, value)]))) = _
    rw [if_neg]
    · rfl
    · intro h
      have := serializeParams_eq_empty _ h
      simp at this

theorem NewsAPI.foldl_appendEntry (params : JSObject) (u : URL) (hu : u.Synced) :
    (params.foldl NewsAPI.appendEntry u).Synced ∧
      (params.foldl NewsAPI.appendEntry u).base = u.base ∧
      (params.foldl NewsAPI.appendEntry u).fragment = u.fragment ∧
      (params.foldl NewsAPI.appendEntry u).searchParams =
        u.searchParams ++ NewsAPI.entryPairs params := by
  induction params generalizing u with
  | nil => exact ⟨hu, rfl, rfl, (List.append_nil _).symm⟩
  | cons entry rest ih =>
    rw [List.foldl_cons, NewsAPI.appendEntry_eq, NewsAPI.entryPairs]
    by_cases hp : entry.2.isPresent = true
    · rw [if_pos hp, if_pos hp]
      obtain ⟨a1, a2, a3, a4⟩ := URL.append_spec u entry.1 entry.2.toStr
      obtain ⟨b1, b2, b3, b4⟩ := ih _ a1
      refine ⟨b1, b2.trans a2, b3.trans a3, ?_⟩
      rw [b4, a4, List.append_assoc]
      rfl
    · rw [if_neg hp, if_neg hp]
      exact ih u hu

/-- The URL that `_buildUrl` returns on an endpoint that parses: its query
parameters are those of the endpoint, then `apikey`, then one pair per
non-null entry of the mapping; base and fragment are those of the endpoint. -/
theorem NewsAPI.buildUrl_ok (self : NewsAPI) (params : JSObject) (endpoint : String) (u : URL)
    (h : URL.parse endpoint = some u) :
    ∃ url v, self._buildUrl params endpoint = .ok url ∧ URL.parse url = some v ∧
      v.base = u.base ∧ v.fragment = u.fragment ∧
      v.searchParams =
        u.searchParams ++ ("apikey", self.apiKey.toStr) :: NewsAPI.entryPairs params ∧
      queryParams url =
        u.searchParams ++ ("apikey", self.apiKey.toStr) :: NewsAPI.entryPairs params := by
  have hclean := URL.parse_clean endpoint u h
  obtain ⟨a1, a2, a3, a4⟩ := URL.append_spec u "apikey" self.apiKey.toStr
  obtain ⟨⟨b0, b1⟩, b2, b3, b4⟩ := NewsAPI.foldl_appendEntry params _ a1
  have hparse := URL.parse_toString _ _
    (show URL.Clean _ from by
      unfold URL.Clean
      rw [b2, a2]
      exact hclean)
    (fun hm => (serializeParams_chars _ _ hm).2.1 (by decide)) b1
  have hsp : parseParams (serializeParams
      (List.foldl NewsAPI.appendEntry (u.append "apikey" self.apiKey.toStr) params).searchParams) =
      u.searchParams ++ ("apikey", self.apiKey.toStr) :: NewsAPI.entryPairs params := by
    rw [parseParams_serializeParams, b4, a4, List.append_assoc]
    rfl
  refine ⟨_, _, ?_, hparse, b2.trans a2, b3.trans a3, hsp, ?_⟩
  · unfold NewsAPI._buildUrl
    rw [h]
  · unfold queryParams
    rw [hparse]
    exact hsp

/-! ## Objects and the pairs of a mapping -/

theorem JSObject.get_cons (e : String × JSVal) (rest : JSObject) (key : String) :
    JSObject.get (e :: rest) key = if e.1 = key then e.2 else JSObject.get rest key := by
  unfold JSObject.get
  rw [List.find?_cons]
  by_cases h : e.1 = key
  · rw [if_pos h]
    have : (e.1 == key) = true := beq_iff_eq.mpr h
    simp only [this]
  · rw [if_neg h]
    have : (e.1 == key) = false := beq_eq_false_iff_ne.mpr h
    simp only [this]

theorem JSObject.get_of_not_mem (o : JSObject) (key : String) (h : key ∉ o.map Prod.fst) :
    JSObject.get o key = .undefined := by
  induction o with
  | nil => rfl
  | cons e rest ih =>
    rw [List.map_cons, List.mem_cons, not_or] at h
    rw [JSObject.get_cons, if_neg (fun e1 => h.1 e1.symm), ih h.2]

theorem JSObject.get_of_mem (o : JSObject) (hwf : o.WF) (key : String) (v : JSVal)
    (h : (key, v) ∈ o) : JSObject.get o key = v := by
  induction o with
  | nil => cases h
  | cons e rest ih =>
    unfold JSObject.WF at hwf
    rw [List.map_cons, List.nodup_cons] at hwf
    rw [JSObject.get_cons]
    rcases List.mem_cons.mp h with h1 | h1
    · rw [← h1, if_pos rfl]
    · have hne : e.1 ≠ key := by
        intro e1
        exact hwf.1 (e1 ▸ List.mem_map_of_mem Prod.fst h1)
      rw [if_neg hne]
      exact ih hwf.2 h1

theorem JSObject.mem_of_get_isPresent (o : JSObject) (key : String)
    (h : (JSObject.get o key).isPresent = true) : (key, JSObject.get o key) ∈ o := by
  induction o with
  | nil => cases h
  | cons e rest ih =>
    rw [JSObject.get_cons] at h ⊢
    by_cases h1 : e.1 = key
    · rw [if_pos h1]
      rw [← h1]
      exact List.mem_cons_self e rest
    · rw [if_neg h1] at h ⊢
      exact List.mem_cons_of_mem e (ih h)

theorem JSObject.set_keys (o : JSObject) (key : String) (v : JSVal)
    (h : key ∈ o.map Prod.fst) : (JSObject.set o key v).map Prod.fst = o.map Prod.fst := by
  induction o with
  | nil => cases h
  | cons e rest ih =>
    rw [JSObject.set]
    by_cases h1 : (e.1 == key) = true
    · rw [if_pos h1, List.map_cons, List.map_cons, beq_iff_eq.mp h1]
    · rw [if_neg h1, List.map_cons, List.map_cons]
      rw [List.map_cons, List.mem_cons] at h
      rcases h with h | h
      · exact absurd (beq_iff_eq.mpr h.symm) h1
      · rw [ih h]

theorem JSObject.get_set (o : JSObject) (key : String) (v : JSVal) (k2 : String) :
    JSObject.get (JSObject.set o key v) k2 = if key = k2 then v else JSObject.get o k2 := by
  induction o with
  | nil => rw [JSObject.set, JSObject.get_cons]
  | cons e rest ih =>
    rw [JSObject.set]
    by_cases h1 : (e.1 == key) = true
    · have he := beq_iff_eq.mp h1
      rw [if_pos h1, JSObject.get_cons, JSObject.get_cons, he]
      by_cases h2 : key = k2
      · simp only [h2, if_true]
      · simp only [h2, if_false]
    · have he : e.1 ≠ key := fun e1 => h1 (beq_iff_eq.mpr e1)
      rw [if_neg h1, JSObject.get_cons, ih, JSObject.get_cons]
      by_cases h2 : e.1 = k2
      · have h3 : key ≠ k2 := fun e1 => he (h2.trans e1.symm)
        simp only [h2, h3, if_true, if_false]
      · simp only [h2, if_false]

theorem NewsAPI.entryPairs_keys (o : JSObject) (key : String)
    (h : key ∈ (NewsAPI.entryPairs o).map Prod.fst) : key ∈ o.map Prod.fst := by
  induction o with
  | nil => cases h
  | cons e rest ih =>
    rw [NewsAPI.entryPairs] at h
    rw [List.map_cons, List.mem_cons]
    split_ifs at h
    · rw [List.map_cons, List.mem_cons] at h
      exact h.elim Or.inl (fun h2 => Or.inr (ih h2))
    · exact Or.inr (ih h)

/-- The values that a mapping contributes under one name: the string forms
of its non-null entries of that name. -/
theorem NewsAPI.entryPairs_filter (o : JSObject) (key : String) :
    ((NewsAPI.entryPairs o).filter (fun p => p.1 == key)).map Prod.snd =
      (o.filter (fun e => e.1 == key && e.2.isPresent)).map (fun e => e.2.toStr) := by
  induction o with
  | nil => rfl
  | cons e rest ih =>
    rw [NewsAPI.entryPairs, List.filter_cons]
    by_cases hp : e.2.isPresent = true
    · rw [if_pos hp, List.filter_cons]
      by_cases hk : (e.1 == key) = true
      · simp only [hk, hp, Bool.and_self, if_true, List.map_cons, ih]
      · simp only [hk, Bool.false_and, Bool.false_eq_true, if_false, ih]
    · rw [if_neg hp]
      simp only [hp, Bool.and_false, Bool.false_eq_true, if_false, ih]

theorem JSObject.filter_key_of_not_mem (o : JSObject) (key : String)
    (h : key ∉ o.map Prod.fst) : o.filter (fun e => e.1 == key && e.2.isPresent) = [] := by
  rw [List.filter_eq_nil_iff]
  intro e he hc
  rw [Bool.and_eq_true, beq_iff_eq] at hc
  exact h (hc.1 ▸ List.mem_map_of_mem Prod.fst he)

/-- In a well-formed mapping the entries under one name are the single
entry that property lookup finds, if its value is neither `null` nor
`undefined`. -/
theorem JSObject.filter_key (o : JSObject) (hwf : o.WF) (key : String) :
    (o.filter (fun e => e.1 == key && e.2.isPresent)).map (fun e => e.2.toStr) =
      if (JSObject.get o key).isPresent then [(JSObject.get o key).toStr] else [] := by
  induction o with
  | nil => rfl
  | cons e rest ih =>
    unfold JSObject.WF at hwf
    rw [List.map_cons, List.nodup_cons] at hwf
    rw [JSObject.get_cons, List.filter_cons]
    by_cases hk : e.1 = key
    · have hrest := JSObject.filter_key_of_not_mem rest key (hk ▸ hwf.1)
      rw [if_pos hk]
      by_cases hp : e.2.isPresent = true
      · simp only [hk, hp, beq_self_eq_true, Bool.and_self, if_true, List.map_cons, hrest,
          List.map_nil]
      · simp only [hk, hp, beq_self_eq_true, Bool.and_false, Bool.false_eq_true, if_false,
          hrest, List.map_nil]
    · have hb : (e.1 == key) = false := beq_eq_false_iff_ne.mpr hk
      rw [if_neg hk]
      simp only [hb, Bool.false_and, Bool.false_eq_true, if_false]
      exact ih hwf.2

/-- The values under one name in a built URL. -/
theorem NewsAPI.paramValues_buildUrl (self : NewsAPI) (params : JSObject) (endpoint : String)
    (u : URL) (h : URL.parse endpoint = some u) (name : String)
    (hu : ∀ p ∈ u.searchParams, p.1 ≠ name) :
    ∃ url, self._buildUrl params endpoint = .ok url ∧
      paramValues url name =
        (if name = "apikey" then [self.apiKey.toStr] else []) ++
          (params.filter (fun e => e.1 == name && e.2.isPresent)).map (fun e => e.2.toStr) := by
  obtain ⟨url, v, h1, _, _, _, _, h6⟩ := NewsAPI.buildUrl_ok self params endpoint u h
  refine ⟨url, h1, ?_⟩
  unfold paramValues
  rw [h6, List.filter_append, List.filter_cons, List.map_append]
  have h0 : u.searchParams.filter (fun p => p.1 == name) = [] := by
    rw [List.filter_eq_nil_iff]
    intro p hp hc
    exact hu p hp (beq_iff_eq.mp hc)
  rw [h0, List.map_nil, List.nil_append]
  by_cases hn : name = "apikey"
  · subst hn
    simp only [beq_self_eq_true, if_true, List.map_cons, List.singleton_append,
      NewsAPI.entryPairs_filter]
  · have hb : (("apikey" : String) == name) = false := beq_eq_false_iff_ne.mpr (Ne.symm hn)
    simp only [hb, Bool.false_eq_true, if_false, hn, List.nil_append,
      NewsAPI.entryPairs_filter]

theorem JSVal.joinParts_scalars (elems : List JSVal) (h : ∀ e ∈ elems, e.isScalar = true) :
    JSVal.joinParts elems = elems.map JSVal.toStr := by
  induction elems with
  | nil => rfl
  | cons e rest ih =>
    have he := h e (List.mem_cons_self e rest)
    have ih2 := ih (fun d hd => h d (List.mem_cons_of_mem e hd))
    cases e with
    | undefined => cases he
    | null => cases he
    | bool b => simp only [JSVal.joinParts, ih2, List.map_cons]
    | num n => simp only [JSVal.joinParts, ih2, List.map_cons]
    | str t => simp only [JSVal.joinParts, ih2, List.map_cons]
    | date d => cases he
    | arr xs => cases he

theorem sampleClient_constructed : (NewsAPI.new (.str "k") []).result = .ok sampleClient := rfl

/-! ## The request builder (C1, C2, C3) -/

/-- C1, as stated, fails: for the client with key `k` and the mapping
`{apikey: "x"}` the built URL is
`https://api.allnewsapi.com/v1/search?apikey=k&apikey=x`, which carries two
`apikey` parameters. -/
theorem buildUrl_apikey_twice :
    sampleClient._buildUrl [("apikey", .str "x")] "https://api.allnewsapi.com/v1/search" =
        .ok "https://api.allnewsapi.com/v1/search?apikey=k&apikey=x" ∧
      paramValues "https://api.allnewsapi.com/v1/search?apikey=k&apikey=x" "apikey" =
        ["k", "x"] :=
  ⟨rfl, by decide⟩

/-- C1 (amended): for every client with configured key `k` and every
parameter mapping, on an endpoint that carries no `apikey` parameter of its
own, `_buildUrl` returns a URL whose `apikey` parameters are `k` followed by
the string form of each entry of the mapping named `apikey` whose value is
neither `null` nor `undefined`; so the URL has exactly one `apikey`
parameter, with value `k`, whenever the mapping has no such entry. -/
theorem buildUrl_apikey (self : NewsAPI) (k : String) (params : JSObject) (endpoint : String)
    (u : URL) (hk : self.apiKey = .str k) (h : URL.parse endpoint = some u)
    (hu : ∀ p ∈ u.searchParams, p.1 ≠ "apikey") :
    ∃ url, self._buildUrl params endpoint = .ok url ∧
      paramValues url "apikey" =
        k :: (params.filter (fun e => e.1 == "apikey" && e.2.isPresent)).map
          (fun e => e.2.toStr) ∧
      ((∀ v, ("apikey", v) ∈ params → v.isPresent = false) →
        paramValues url "apikey" = [k]) := by
  obtain ⟨url, h1, h2⟩ := NewsAPI.paramValues_buildUrl self params endpoint u h "apikey" hu
  rw [if_pos rfl, hk] at h2
  refine ⟨url, h1, h2, ?_⟩
  intro hnone
  rw [h2]
  have : params.filter (fun e => e.1 == "apikey" && e.2.isPresent) = [] := by
    rw [List.filter_eq_nil_iff]
    intro e he hc
    rw [Bool.and_eq_true, beq_iff_eq] at hc
    have hmem : ("apikey", e.2) ∈ params := by
      rw [← hc.1]
      exact he
    rw [hnone e.2 hmem] at hc
    exact Bool.false_ne_true hc.2
  rw [this]
  rfl

/-- C1 (amended), instance: key `k`, mapping `{q: "google", apikey: null}`,
production search endpoint. -/
theorem buildUrl_apikey_witness :
    sampleClient.apiKey = .str "k" ∧
      URL.parse "https://api.allnewsapi.com/v1/search" = some sampleSearchURL ∧
      (∀ p ∈ sampleSearchURL.searchParams, p.1 ≠ "apikey") ∧
      ∃ url, sampleClient._buildUrl [("q", .str "google"), ("apikey", .null)]
          "https://api.allnewsapi.com/v1/search" = .ok url ∧
        paramValues url "apikey" =
          "k" :: (([("q", .str "google"), ("apikey", .null)] : JSObject).filter
            (fun e => e.1 == "apikey" && e.2.isPresent)).map (fun e => e.2.toStr) ∧
        ((∀ v, ("apikey", v) ∈ ([("q", .str "google"), ("apikey", .null)] : JSObject) →
            v.isPresent = false) →
          paramValues url "apikey" = ["k"]) :=
  ⟨rfl, rfl, (fun _ hp => nomatch hp),
    buildUrl_apikey sampleClient "k" [("q", .str "google"), ("apikey", .null)]
      "https://api.allnewsapi.com/v1/search" sampleSearchURL rfl rfl (fun _ hp => nomatch hp)⟩

/-- C2: for every well-formed parameter mapping and every name `n` other
than `apikey`, on an endpoint that carries no parameter named `n` of its
own, `_buildUrl` returns a URL that contains a query parameter named `n` if
and only if the mapping has an entry `n` whose value is neither `null` nor
`undefined`; in particular a `null`- or `undefined`-valued parameter does
not appear in the built URL. -/
theorem buildUrl_param_iff (self : NewsAPI) (params : JSObject) (endpoint : String) (u : URL)
    (n : String) (h : URL.parse endpoint = some u) (hn : n ≠ "apikey")
    (hu : ∀ p ∈ u.searchParams, p.1 ≠ n) (hwf : params.WF) :
    ∃ url, self._buildUrl params endpoint = .ok url ∧
      (paramValues url n ≠ [] ↔ ∃ v, (n, v) ∈ params ∧ v.isPresent = true) ∧
      (∀ v, (n, v) ∈ params → v.isPresent = false → paramValues url n = []) := by
  obtain ⟨url, h1, h2⟩ := NewsAPI.paramValues_buildUrl self params endpoint u h n hu
  rw [if_neg hn, List.nil_append] at h2
  refine ⟨url, h1, ?_, ?_⟩
  · rw [h2, Ne, List.map_eq_nil_iff, List.filter_eq_nil_iff]
    constructor
    · intro hne
      by_contra hall
      apply hne
      intro e he hc
      rw [Bool.and_eq_true, beq_iff_eq] at hc
      exact hall ⟨e.2, hc.1 ▸ he, hc.2⟩
    · rintro ⟨v, hv, hp⟩ hall
      exact hall (n, v) hv (by simp [hp])
  · intro v hv hp
    rw [h2, JSObject.filter_key params hwf n, JSObject.get_of_mem params hwf n v hv, hp]
    rfl

/-- C2, instance: mapping `{q: "google", lang: null}` and name `lang` on the
production search endpoint. -/
theorem buildUrl_param_iff_witness :
    URL.parse "https://api.allnewsapi.com/v1/search" = some sampleSearchURL ∧
      ("lang" : String) ≠ "apikey" ∧
      (∀ p ∈ sampleSearchURL.searchParams, p.1 ≠ "lang") ∧
      JSObject.WF [("q", .str "google"), ("lang", .null)] ∧
      ∃ url, sampleClient._buildUrl [("q", .str "google"), ("lang", .null)]
          "https://api.allnewsapi.com/v1/search" = .ok url ∧
        (paramValues url "lang" ≠ [] ↔
          ∃ v, ("lang", v) ∈ ([("q", .str "google"), ("lang", .null)] : JSObject) ∧
            v.isPresent = true) ∧
        (∀ v, ("lang", v) ∈ ([("q", .str "google"), ("lang", .null)] : JSObject) →
          v.isPresent = false → paramValues url "lang" = []) :=
  ⟨rfl, by decide, (fun _ hp => nomatch hp), by decide,
    buildUrl_param_iff sampleClient [("q", .str "google"), ("lang", .null)]
      "https://api.allnewsapi.com/v1/search" sampleSearchURL "lang" rfl (by decide)
      (fun _ hp => nomatch hp) (by decide)⟩

/-- C3, as stated, fails for a parameter named `apikey`: for the mapping
`{apikey: ["en","fr"]}` the built URL is
`https://api.allnewsapi.com/v1/search?apikey=k&apikey=en%2Cfr`, where the
parameter occurs twice, first with the client's key; and it fails on an
endpoint that carries the parameter itself: on `https://h/v1/search?lang=x`
the mapping `{lang: ["en","fr"]}` gives
`https://h/v1/search?lang=x&apikey=k&lang=en%2Cfr`, where `lang` occurs
twice. -/
theorem buildUrl_array_apikey_twice :
    sampleClient._buildUrl [("apikey", .arr [.str "en", .str "fr"])]
        "https://api.allnewsapi.com/v1/search" =
        .ok "https://api.allnewsapi.com/v1/search?apikey=k&apikey=en%2Cfr" ∧
      paramValues "https://api.allnewsapi.com/v1/search?apikey=k&apikey=en%2Cfr" "apikey" =
        ["k", "en,fr"] ∧
      sampleClient._buildUrl [("lang", .arr [.str "en", .str "fr"])]
        "https://h/v1/search?lang=x" =
        .ok "https://h/v1/search?lang=x&apikey=k&lang=en%2Cfr" ∧
      paramValues "https://h/v1/search?lang=x&apikey=k&lang=en%2Cfr" "lang" = ["x", "en,fr"] :=
  ⟨rfl, by decide, rfl, by decide⟩

/-- C3 (amended): for every parameter other than `apikey` whose value is a
sequence of scalars, on an endpoint that carries no parameter of that name
of its own, the URL returned by `_buildUrl` contains exactly one occurrence
of that parameter, and its value is the elements joined with a comma
separator in their original order. -/
theorem buildUrl_array_param (self : NewsAPI) (params : JSObject) (endpoint : String) (u : URL)
    (key : String) (elems : List JSVal) (h : URL.parse endpoint = some u)
    (hk : key ≠ "apikey") (hu : ∀ p ∈ u.searchParams, p.1 ≠ key) (hwf : params.WF)
    (hmem : (key, JSVal.arr elems) ∈ params) (hs : ∀ e ∈ elems, e.isScalar = true) :
    ∃ url, self._buildUrl params endpoint = .ok url ∧
      paramValues url key = [String.intercalate "," (elems.map JSVal.toStr)] := by
  obtain ⟨url, h1, h2⟩ := NewsAPI.paramValues_buildUrl self params endpoint u h key hu
  rw [if_neg hk, List.nil_append] at h2
  refine ⟨url, h1, ?_⟩
  rw [h2, JSObject.filter_key params hwf key, JSObject.get_of_mem params hwf key _ hmem]
  simp only [JSVal.isPresent, if_true, JSVal.toStr, JSVal.joinParts_scalars elems hs]

/-- C3 (amended), instance: `{q: "google", lang: ["en","fr"]}` gives the
single parameter `lang` with value `en,fr`. -/
theorem buildUrl_array_param_witness :
    URL.parse "https://api.allnewsapi.com/v1/search" = some sampleSearchURL ∧
      ("lang" : String) ≠ "apikey" ∧
      (∀ p ∈ sampleSearchURL.searchParams, p.1 ≠ "lang") ∧
      JSObject.WF [("q", .str "google"), ("lang", .arr [.str "en", .str "fr"])] ∧
      (∀ e ∈ [JSVal.str "en", JSVal.str "fr"], e.isScalar = true) ∧
      ∃ url, sampleClient._buildUrl [("q", .str "google"), ("lang", .arr [.str "en", .str "fr"])]
          "https://api.allnewsapi.com/v1/search" = .ok url ∧
        paramValues url "lang" = ["en,fr"] :=
  ⟨rfl, by decide, (fun _ hp => nomatch hp), by decide, by simp [JSVal.isScalar],
    buildUrl_array_param sampleClient [("q", .str "google"), ("lang", .arr [.str "en", .str "fr"])]
      "https://api.allnewsapi.com/v1/search" sampleSearchURL "lang" [.str "en", .str "fr"]
      rfl (by decide) (fun _ hp => nomatch hp) (by decide)
      (List.mem_cons_of_mem _ (List.mem_cons_self _ _)) (by simp [JSVal.isScalar])⟩

/-! ## The request executor (C4, C5, C6, C10) -/

theorem NewsAPI.makeRequest_of_url (self : NewsAPI) (fetch : Fetch) (params : JSObject)
    (endpoint url : String) (hurl : self._buildUrl params endpoint = .ok url) :
    self._makeRequest fetch params endpoint =
      { result := NewsAPI.recover (NewsAPI.attempt fetch params url), requests := [url] } := by
  unfold NewsAPI._makeRequest
  rw [hurl]

theorem NewsAPI.attempt_ok (fetch : Fetch) (params : JSObject) (url : String)
    (response : Response) (hf : fetch url = .ok response) (hok : response.ok = true) :
    NewsAPI.attempt fetch params url =
      if ((params.get "format").or (.str "json")).isStr "json" then
        response.json.map Payload.json
      else if ((params.get "format").or (.str "json")).isStr "csv" ||
          ((params.get "format").or (.str "json")).isStr "xlsx" then
        response.blob.map Payload.blob
      else response.text.map Payload.text := by
  unfold NewsAPI.attempt
  rw [hf]
  simp only [hok, Bool.not_true, Bool.false_eq_true, if_false]

theorem NewsAPI.attempt_not_ok (fetch : Fetch) (params : JSObject) (url : String)
    (response : Response) (hf : fetch url = .ok response) (hok : response.ok = false) :
    NewsAPI.attempt fetch params url =
      match NewsAPIError.new response.status
        (NewsAPI.errorMessage (NewsAPI.errorData response) response.status) with
      | .ok error => .error (.newsAPIError error)
      | .error thrown => .error thrown := by
  unfold NewsAPI.attempt
  rw [hf]
  simp only [hok, Bool.not_false, if_true]

theorem NewsAPI.recover_error (name message : String) :
    NewsAPI.recover (.error (.error name message)) =
      .error (.newsAPIError { name := "AllNewsAPIError", statusCode := 500,
                              message := "Request failed: " ++ message }) := rfl

theorem JSVal.eq_of_isStr (v : JSVal) (s : String) (h : v.isStr s = true) : v = .str s := by
  cases v with
  | str t =>
    unfold JSVal.isStr at h
    rw [beq_iff_eq.mp h]
  | _ => cases h

theorem NewsAPIError.new_of_truthy (statusCode : Nat) (m : JSONVal) (h : m.truthy = true) :
    NewsAPIError.new statusCode m =
      match m.toStr with
      | some text =>
        .ok { name := "AllNewsAPIError", statusCode := statusCode, message := text }
      | none => .error (.error "TypeError" toPrimitiveErrorMessage) := by
  cases m with
  | undefined => cases h
  | _ => rfl

/-- The request settles as the error constructor does: a constructed error is
raised as it is, a `TypeError` of the constructor is wrapped as status 500. -/
theorem NewsAPI.recover_new (statusCode : Nat) (m : JSONVal) (h : m.truthy = true) :
    NewsAPI.recover
        (match NewsAPIError.new statusCode m with
         | .ok error => .error (.newsAPIError error)
         | .error thrown => .error thrown) =
      .error (.newsAPIError
        (match m.toStr with
         | some text =>
           { name := "AllNewsAPIError", statusCode := statusCode, message := text }
         | none =>
           { name := "AllNewsAPIError", statusCode := 500,
             message := "Request failed: " ++ toPrimitiveErrorMessage })) := by
  rw [NewsAPIError.new_of_truthy statusCode m h]
  cases m.toStr <;> rfl

theorem NewsAPI.errorMessage_eq (body : JSONVal) (status : Nat) :
    NewsAPI.errorMessage body status =
      if ((body.optGet "detail").optGet "message").truthy then
        (body.optGet "detail").optGet "message"
      else if (body.optGet "message").truthy then body.optGet "message"
      else .str (NewsAPI._getErrorMessage status).toStr := by
  unfold NewsAPI.errorMessage JSONVal.or
  rfl

theorem NewsAPI.getErrorMessage_eq (s : Nat) :
    NewsAPI._getErrorMessage s =
      if s = 400 then .str "Bad Request - Your request is invalid"
      else if s = 401 then .str "Unauthorized - Invalid API Key or Account status is inactive"
      else if s = 403 then
        .str "Forbidden - Your account is not authorized to make that request"
      else if s = 429 then
        .str ("Too Many Requests - You have reached your daily request limit. " ++
          "The next reset is at 00:00 UTC")
      else if s = 500 then
        .str ("Internal Server Error - We had a problem with our server. " ++
          "Please try again later")
      else if s = 503 then
        .str ("Service Unavailable - We\x27re temporarily offline for maintenance. " ++
          "Please try again later")
      else .str "Unknown error occurred" := by
  by_cases h1 : s = 400
  · subst h1; rfl
  by_cases h2 : s = 401
  · subst h2; rfl
  by_cases h3 : s = 403
  · subst h3; rfl
  by_cases h4 : s = 429
  · subst h4; rfl
  by_cases h5 : s = 500
  · subst h5; rfl
  by_cases h6 : s = 503
  · subst h6; rfl
  rw [if_neg h1, if_neg h2, if_neg h3, if_neg h4, if_neg h5, if_neg h6]
  have b1 : (s == 400) = false := beq_eq_false_iff_ne.mpr h1
  have b2 : (s == 401) = false := beq_eq_false_iff_ne.mpr h2
  have b3 : (s == 403) = false := beq_eq_false_iff_ne.mpr h3
  have b4 : (s == 429) = false := beq_eq_false_iff_ne.mpr h4
  have b5 : (s == 500) = false := beq_eq_false_iff_ne.mpr h5
  have b6 : (s == 503) = false := beq_eq_false_iff_ne.mpr h6
  simp only [NewsAPI._getErrorMessage, NewsAPI.errorMessages, List.lookup, b1, b2, b3, b4, b5,
    b6]
  rfl

theorem NewsAPI.getErrorMessage_truthy (s : Nat) : (NewsAPI._getErrorMessage s).truthy = true := by
  rw [NewsAPI.getErrorMessage_eq]
  split_ifs <;> rfl

/-- C4, as stated, fails: with `format: ""`, a value other than `json`,
`csv` and `xlsx`, a 200 response resolves to the decoded JSON body
`{"articles": []}` and not to the raw text payload `a`. -/
theorem makeRequest_empty_format :
    (sampleClient._makeRequest (fun _ => .ok sampleResponse) [("format", .str "")]
        "https://api.allnewsapi.com/v1/search").result =
        .ok (.json (.obj [("articles", .arr [])])) ∧
      sampleResponse.text = .ok "a" :=
  ⟨rfl, rfl⟩

/-- C4 (amended): for every successful (2xx) response, `_makeRequest`
selects its result by the `format` field of the options: when `format` is
falsy (absent, `undefined`, `null`, the empty string, `0`, `false`) or
`"json"` it returns the decoded JSON body unchanged; when `format` is
`"csv"` or `"xlsx"` it returns the raw binary payload; for any truthy value
other than `"json"`, `"csv"`, `"xlsx"` it returns the raw text payload. -/
theorem makeRequest_format (self : NewsAPI) (fetch : Fetch) (params : JSObject)
    (endpoint url : String) (response : Response)
    (hurl : self._buildUrl params endpoint = .ok url) (hf : fetch url = .ok response)
    (hok : response.ok = true) :
    ((params.get "format").truthy = false ∨ (params.get "format").isStr "json" = true →
        ∀ v, response.json = .ok v →
          (self._makeRequest fetch params endpoint).result = .ok (.json v)) ∧
      ((params.get "format").isStr "csv" = true ∨ (params.get "format").isStr "xlsx" = true →
        ∀ b, response.blob = .ok b →
          (self._makeRequest fetch params endpoint).result = .ok (.blob b)) ∧
      ((params.get "format").truthy = true → (params.get "format").isStr "json" = false →
        (params.get "format").isStr "csv" = false →
        (params.get "format").isStr "xlsx" = false →
        ∀ t, response.text = .ok t →
          (self._makeRequest fetch params endpoint).result = .ok (.text t)) := by
  rw [NewsAPI.makeRequest_of_url self fetch params endpoint url hurl,
    NewsAPI.attempt_ok fetch params url response hf hok]
  refine ⟨?_, ?_, ?_⟩
  · intro hfmt v hv
    have hj : ((params.get "format").or (.str "json")).isStr "json" = true := by
      rcases hfmt with h | h
      · unfold JSVal.or
        rw [h]
        rfl
      · rw [JSVal.eq_of_isStr _ _ h]
        rfl
    simp only [hj, if_true, hv]
    rfl
  · intro hfmt b hb
    have hj : ((params.get "format").or (.str "json")).isStr "json" = false ∧
        (((params.get "format").or (.str "json")).isStr "csv" ||
          ((params.get "format").or (.str "json")).isStr "xlsx") = true := by
      rcases hfmt with h | h
      · rw [JSVal.eq_of_isStr _ _ h]
        exact ⟨rfl, rfl⟩
      · rw [JSVal.eq_of_isStr _ _ h]
        exact ⟨rfl, rfl⟩
    simp only [hj.1, hj.2, Bool.false_eq_true, if_false, if_true, hb]
    rfl
  · intro ht h1 h2 h3 t htx
    have hor : (params.get "format").or (.str "json") = params.get "format" := by
      unfold JSVal.or
      rw [ht]
      rfl
    simp only [hor, h1, h2, h3, Bool.or_self, Bool.false_eq_true, if_false, htx]
    rfl

/-- C4 (amended), instance: `format: "csv"` on a 200 response resolves to the
binary payload. -/
theorem makeRequest_format_witness :
    sampleClient._buildUrl [("format", .str "csv")] "https://api.allnewsapi.com/v1/search" =
        .ok "https://api.allnewsapi.com/v1/search?apikey=k&format=csv" ∧
      sampleResponse.ok = true ∧
      (sampleClient._makeRequest (fun _ => .ok sampleResponse) [("format", .str "csv")]
        "https://api.allnewsapi.com/v1/search").result = .ok (.blob { bytes := [0x61] }) :=
  ⟨rfl, rfl,
    (makeRequest_format sampleClient (fun _ => .ok sampleResponse) [("format", .str "csv")]
      "https://api.allnewsapi.com/v1/search"
      "https://api.allnewsapi.com/v1/search?apikey=k&format=csv" sampleResponse rfl rfl
      rfl).2.1 (Or.inl rfl) { bytes := [0x61] } rfl⟩

/-- C5, as stated, fails: for a 429 response with the JSON body
`{"detail": {"message": ""}, "message": "top"}` the nested field
`detail.message` is present (it is the empty string), yet the error carries
the top-level message `top`; and for a 429 response with the JSON body
`{"message": {"toString": 1}}` the top-level field is present, yet the
caller gets an error of status 500, not 429. -/
theorem makeRequest_empty_detail_message :
    ((JSONVal.obj [("detail", .obj [("message", .str "")]), ("message", .str "top")]).optGet
        "detail").optGet "message" = .str "" ∧
      (sampleClient._makeRequest
        (fun _ => .ok (errorResponse
          (.obj [("detail", .obj [("message", .str "")]), ("message", .str "top")])))
        [] "https://api.allnewsapi.com/v1/search").result =
        .error (.newsAPIError
          { name := "AllNewsAPIError", statusCode := 429, message := "top" }) ∧
      (sampleClient._makeRequest
        (fun _ => .ok (errorResponse (.obj [("message", .obj [("toString", .num "1")])])))
        [] "https://api.allnewsapi.com/v1/search").result =
        .error (.newsAPIError
          { name := "AllNewsAPIError", statusCode := 500,
            message := "Request failed: Cannot convert object to primitive value" }) :=
  ⟨rfl, rfl, rfl⟩

/-- C5 (amended): for every non-2xx response with status `s` whose body
parses as JSON, `_makeRequest` rejects with a normalized error whose status
code is `s` and whose message is the string form of the body's nested
`detail.message` field if that is truthy (for a string: non-empty), otherwise
of the body's top-level `message` field if that is truthy, otherwise the
lookup-table message for `s`; when the chosen field has no string form
because its `ToString` throws (an object with an own `toString` property, or
an array holding one), it rejects instead with the normalized error of
status 500 whose message is `Request failed: ` followed by the message of
that `TypeError`. -/
theorem makeRequest_error_message (self : NewsAPI) (fetch : Fetch) (params : JSObject)
    (endpoint url : String) (response : Response) (body : JSONVal)
    (hurl : self._buildUrl params endpoint = .ok url) (hf : fetch url = .ok response)
    (hok : response.ok = false) (hbody : response.json = .ok body) :
    (self._makeRequest fetch params endpoint).result =
      .error (.newsAPIError
        (match
          (if ((body.optGet "detail").optGet "message").truthy then
            ((body.optGet "detail").optGet "message").toStr
          else if (body.optGet "message").truthy then (body.optGet "message").toStr
          else some (NewsAPI._getErrorMessage response.status).toStr) with
         | some text =>
           { name := "AllNewsAPIError", statusCode := response.status, message := text }
         | none =>
           { name := "AllNewsAPIError", statusCode := 500,
             message := "Request failed: " ++ toPrimitiveErrorMessage })) := by
  have hdata : NewsAPI.errorData response = body := by
    unfold NewsAPI.errorData
    rw [hbody]
  rw [NewsAPI.makeRequest_of_url self fetch params endpoint url hurl,
    NewsAPI.attempt_not_ok fetch params url response hf hok, hdata]
  show NewsAPI.recover _ = _
  have htable : (JSONVal.str (NewsAPI._getErrorMessage response.status).toStr).truthy = true := by
    rw [NewsAPI.getErrorMessage_eq]
    split_ifs <;> rfl
  rw [NewsAPI.errorMessage_eq]
  by_cases h1 : ((body.optGet "detail").optGet "message").truthy = true
  · rw [if_pos h1, if_pos h1, NewsAPI.recover_new _ _ h1]
  · rw [if_neg h1, if_neg h1]
    by_cases h2 : (body.optGet "message").truthy = true
    · rw [if_pos h2, if_pos h2, NewsAPI.recover_new _ _ h2]
    · rw [if_neg h2, if_neg h2, NewsAPI.recover_new _ _ htable]
      rfl

/-- C5 (amended), instance: status 429 with body
`{"detail": {"message": "rate limited"}}` gives status 429 and message
`rate limited`. -/
theorem makeRequest_error_message_witness :
    sampleClient._buildUrl [] "https://api.allnewsapi.com/v1/search" =
        .ok "https://api.allnewsapi.com/v1/search?apikey=k" ∧
      (errorResponse (.obj [("detail", .obj [("message", .str "rate limited")])])).ok = false ∧
      (sampleClient._makeRequest
        (fun _ => .ok (errorResponse (.obj [("detail", .obj [("message", .str "rate limited")])])))
        [] "https://api.allnewsapi.com/v1/search").result =
        .error (.newsAPIError
          { name := "AllNewsAPIError", statusCode := 429, message := "rate limited" }) :=
  ⟨rfl, rfl,
    makeRequest_error_message sampleClient
      (fun _ => .ok (errorResponse (.obj [("detail", .obj [("message", .str "rate limited")])])))
      [] "https://api.allnewsapi.com/v1/search" "https://api.allnewsapi.com/v1/search?apikey=k"
      (errorResponse (.obj [("detail", .obj [("message", .str "rate limited")])]))
      (.obj [("detail", .obj [("message", .str "rate limited")])]) rfl rfl rfl rfl⟩

theorem NewsAPIError.new_statusCode (statusCode : Nat) (m : JSONVal) (e : NewsAPIError)
    (h : NewsAPIError.new statusCode m = .ok e) : e.statusCode = statusCode := by
  unfold NewsAPIError.new at h
  split at h
  · cases h
    rfl
  · split at h
    · cases h
      rfl
    · cases h

/-- C6: once the request URL is built, a `fetch` that rejects with an error
that is not a normalized error, and a successful response whose body the
selected decoder (`json()` for a falsy format or `"json"`, `blob()` for
`"csv"` and `"xlsx"`, `text()` otherwise) fails to decode, make `_makeRequest`
reject with a normalized error of status code 500 whose message is
`Request failed: ` followed by the failure's message; and the normalized
error constructed on the non-2xx path reaches the caller as it was
constructed, with the response's status code, as does any normalized error
that `fetch` itself rejects with. -/
theorem makeRequest_failures (self : NewsAPI) (fetch : Fetch) (params : JSObject)
    (endpoint url : String) (hurl : self._buildUrl params endpoint = .ok url) :
    (∀ name message, fetch url = .error (.error name message) →
        (self._makeRequest fetch params endpoint).result =
          .error (.newsAPIError { name := "AllNewsAPIError", statusCode := 500,
                                  message := "Request failed: " ++ message })) ∧
      (∀ response name message, fetch url = .ok response → response.ok = true →
        (((params.get "format").truthy = false ∨ (params.get "format").isStr "json" = true) →
          response.json = .error (.error name message) →
          (self._makeRequest fetch params endpoint).result =
            .error (.newsAPIError { name := "AllNewsAPIError", statusCode := 500,
                                    message := "Request failed: " ++ message })) ∧
        (((params.get "format").isStr "csv" = true ∨
            (params.get "format").isStr "xlsx" = true) →
          response.blob = .error (.error name message) →
          (self._makeRequest fetch params endpoint).result =
            .error (.newsAPIError { name := "AllNewsAPIError", statusCode := 500,
                                    message := "Request failed: " ++ message })) ∧
        ((params.get "format").truthy = true → (params.get "format").isStr "json" = false →
          (params.get "format").isStr "csv" = false →
          (params.get "format").isStr "xlsx" = false →
          response.text = .error (.error name message) →
          (self._makeRequest fetch params endpoint).result =
            .error (.newsAPIError { name := "AllNewsAPIError", statusCode := 500,
                                    message := "Request failed: " ++ message }))) ∧
      (∀ response error, fetch url = .ok response → response.ok = false →
        NewsAPIError.new response.status
          (NewsAPI.errorMessage (NewsAPI.errorData response) response.status) = .ok error →
        (self._makeRequest fetch params endpoint).result = .error (.newsAPIError error) ∧
          error.statusCode = response.status) ∧
      (∀ error, fetch url = .error (.newsAPIError error) →
        (self._makeRequest fetch params endpoint).result = .error (.newsAPIError error)) := by
  rw [NewsAPI.makeRequest_of_url self fetch params endpoint url hurl]
  refine ⟨?_, ?_, ?_, ?_⟩
  · intro name message h
    show NewsAPI.recover (NewsAPI.attempt fetch params url) = _
    unfold NewsAPI.attempt
    rw [h]
    rfl
  · intro response name message hf hok
    have hat := NewsAPI.attempt_ok fetch params url response hf hok
    refine ⟨?_, ?_, ?_⟩
    · intro hfmt hj
      have hsel : ((params.get "format").or (.str "json")).isStr "json" = true := by
        rcases hfmt with h | h
        · unfold JSVal.or
          rw [h]
          rfl
        · rw [JSVal.eq_of_isStr _ _ h]
          rfl
      show NewsAPI.recover (NewsAPI.attempt fetch params url) = _
      rw [hat, if_pos hsel, hj]
      rfl
    · intro hfmt hb
      have hsel : ((params.get "format").or (.str "json")).isStr "json" = false ∧
          (((params.get "format").or (.str "json")).isStr "csv" ||
            ((params.get "format").or (.str "json")).isStr "xlsx") = true := by
        rcases hfmt with h | h
        · rw [JSVal.eq_of_isStr _ _ h]
          exact ⟨rfl, rfl⟩
        · rw [JSVal.eq_of_isStr _ _ h]
          exact ⟨rfl, rfl⟩
      show NewsAPI.recover (NewsAPI.attempt fetch params url) = _
      rw [hat]
      simp only [hsel.1, hsel.2, Bool.false_eq_true, if_false, if_true, hb]
      rfl
    · intro ht h1 h2 h3 htx
      have hor : (params.get "format").or (.str "json") = params.get "format" := by
        unfold JSVal.or
        rw [ht]
        rfl
      show NewsAPI.recover (NewsAPI.attempt fetch params url) = _
      rw [hat]
      simp only [hor, h1, h2, h3, Bool.or_self, Bool.false_eq_true, if_false, htx]
      rfl
  · intro response error hf hok hnew
    refine ⟨?_, NewsAPIError.new_statusCode _ _ _ hnew⟩
    show NewsAPI.recover (NewsAPI.attempt fetch params url) = _
    rw [NewsAPI.attempt_not_ok fetch params url response hf hok, hnew]
    rfl
  · intro error h
    show NewsAPI.recover (NewsAPI.attempt fetch params url) = _
    unfold NewsAPI.attempt
    rw [h]
    rfl

/-- C6, instance: a `fetch` that rejects with `TypeError: Failed to fetch`
gives status 500 and message `Request failed: Failed to fetch`. -/
theorem makeRequest_failures_witness :
    sampleClient._buildUrl [] "https://api.allnewsapi.com/v1/search" =
        .ok "https://api.allnewsapi.com/v1/search?apikey=k" ∧
      (sampleClient._makeRequest (fun _ => .error (.error "TypeError" "Failed to fetch")) []
        "https://api.allnewsapi.com/v1/search").result =
        .error (.newsAPIError { name := "AllNewsAPIError", statusCode := 500,
                                message := "Request failed: Failed to fetch" }) :=
  ⟨rfl,
    (makeRequest_failures sampleClient (fun _ => .error (.error "TypeError" "Failed to fetch")) []
      "https://api.allnewsapi.com/v1/search" "https://api.allnewsapi.com/v1/search?apikey=k"
      rfl).1 "TypeError" "Failed to fetch" rfl⟩

/-- C10: for every non-2xx response with status `s` whose body cannot be
parsed as JSON, `_makeRequest` rejects with a normalized error of status `s`
whose message is the lookup-table message for `s`: the fixed text for each of
400, 401, 403, 429, 500 and 503, and `Unknown error occurred` for any other
code. -/
theorem makeRequest_unparseable_body (self : NewsAPI) (fetch : Fetch) (params : JSObject)
    (endpoint url : String) (response : Response) (e : Thrown)
    (hurl : self._buildUrl params endpoint = .ok url) (hf : fetch url = .ok response)
    (hok : response.ok = false) (hbody : response.json = .error e) :
    (self._makeRequest fetch params endpoint).result =
        .error (.newsAPIError
          { name := "AllNewsAPIError"
            statusCode := response.status
            message := (NewsAPI._getErrorMessage response.status).toStr }) ∧
      (NewsAPI._getErrorMessage 400).toStr = "Bad Request - Your request is invalid" ∧
      (NewsAPI._getErrorMessage 401).toStr =
        "Unauthorized - Invalid API Key or Account status is inactive" ∧
      (NewsAPI._getErrorMessage 403).toStr =
        "Forbidden - Your account is not authorized to make that request" ∧
      (NewsAPI._getErrorMessage 429).toStr =
        "Too Many Requests - You have reached your daily request limit. " ++
          "The next reset is at 00:00 UTC" ∧
      (NewsAPI._getErrorMessage 500).toStr =
        "Internal Server Error - We had a problem with our server. Please try again later" ∧
      (NewsAPI._getErrorMessage 503).toStr =
        "Service Unavailable - We\x27re temporarily offline for maintenance. " ++
          "Please try again later" ∧
      (∀ s, s ∉ [400, 401, 403, 429, 500, 503] →
        (NewsAPI._getErrorMessage s).toStr = "Unknown error occurred") := by
  refine ⟨?_, rfl, rfl, rfl, rfl, rfl, rfl, ?_⟩
  · have hdata : NewsAPI.errorData response = .obj [] := by
      unfold NewsAPI.errorData
      rw [hbody]
    have hmsg : NewsAPI.errorMessage (.obj []) response.status =
        .str (NewsAPI._getErrorMessage response.status).toStr := rfl
    rw [NewsAPI.makeRequest_of_url self fetch params endpoint url hurl,
      NewsAPI.attempt_not_ok fetch params url response hf hok, hdata, hmsg]
    rfl
  · intro s hs
    simp only [List.mem_cons, List.mem_singleton, List.not_mem_nil, or_false, not_or] at hs
    rw [NewsAPI.getErrorMessage_eq, if_neg hs.1, if_neg hs.2.1, if_neg hs.2.2.1,
      if_neg hs.2.2.2.1, if_neg hs.2.2.2.2.1, if_neg hs.2.2.2.2.2]
    rfl

/-- C10, instance: status 503 with a non-JSON body gives status 503 and the
503 fallback message. -/
theorem makeRequest_unparseable_body_witness :
    sampleClient._buildUrl [] "https://api.allnewsapi.com/v1/search" =
        .ok "https://api.allnewsapi.com/v1/search?apikey=k" ∧
      unparseableResponse.ok = false ∧
      (sampleClient._makeRequest (fun _ => .ok unparseableResponse) []
        "https://api.allnewsapi.com/v1/search").result =
        .error (.newsAPIError
          { name := "AllNewsAPIError"
            statusCode := 503
            message := "Service Unavailable - We\x27re temporarily offline for maintenance. " ++
              "Please try again later" }) :=
  ⟨rfl, rfl,
    (makeRequest_unparseable_body sampleClient (fun _ => .ok unparseableResponse) []
      "https://api.allnewsapi.com/v1/search" "https://api.allnewsapi.com/v1/search?apikey=k"
      unparseableResponse (.error "SyntaxError" "Unexpected token < in JSON at position 0")
      rfl rfl rfl rfl).1⟩

/-! ## Construction (C8) -/

/-- C8: for an API key that is a string or absent (`undefined`, `null`),
construction fails with the configuration error `API key is required` if and
only if the key is the empty string, `undefined` or `null`; construction
requests nothing from the network; and for every non-empty key string it
succeeds and stores that key. -/
theorem constructor_key (apiKey : JSVal) (config : JSObject)
    (hk : apiKey = .undefined ∨ apiKey = .null ∨ ∃ k, apiKey = .str k) :
    ((NewsAPI.new apiKey config).result = .error (.error "Error" "API key is required") ↔
        apiKey = .str "" ∨ apiKey = .undefined ∨ apiKey = .null) ∧
      (NewsAPI.new apiKey config).requests = [] ∧
      (∀ k, apiKey = .str k → k ≠ "" →
        ∃ client, (NewsAPI.new apiKey config).result = .ok client ∧ client.apiKey = .str k) := by
  have hreq : (NewsAPI.new apiKey config).requests = [] := by
    unfold NewsAPI.new
    split_ifs <;> rfl
  have hgood : ∀ k, apiKey = .str k → k ≠ "" →
      ∃ client, (NewsAPI.new apiKey config).result = .ok client ∧ client.apiKey = .str k := by
    intro k hs hne
    subst hs
    have ht : (JSVal.str k).truthy = true := by
      unfold JSVal.truthy
      exact bne_iff_ne.mpr hne
    unfold NewsAPI.new
    rw [ht]
    exact ⟨_, rfl, rfl⟩
  refine ⟨⟨?_, ?_⟩, hreq, hgood⟩
  · intro hfail
    rcases hk with h | h | ⟨k, h⟩
    · exact Or.inr (Or.inl h)
    · exact Or.inr (Or.inr h)
    · by_cases hne : k = ""
      · exact Or.inl (hne ▸ h)
      · obtain ⟨client, hc, _⟩ := hgood k h hne
        rw [hc] at hfail
        cases hfail
  · intro hempty
    rcases hempty with h | h | h <;> subst h <;> rfl

/-- C8, instance: the empty key fails, without a request. -/
theorem constructor_key_witness :
    (JSVal.str "" = .undefined ∨ JSVal.str "" = .null ∨ ∃ k, JSVal.str "" = .str k) ∧
      (NewsAPI.new (.str "") []).result = .error (.error "Error" "API key is required") ∧
      (NewsAPI.new (.str "") []).requests = [] :=
  ⟨Or.inr (Or.inr ⟨"", rfl⟩),
    (constructor_key (.str "") [] (Or.inr (Or.inr ⟨"", rfl⟩))).1.mpr (Or.inl rfl),
    (constructor_key (.str "") [] (Or.inr (Or.inr ⟨"", rfl⟩))).2.1⟩

/-! ## Search and headlines (C7, C9) -/

theorem NewsAPI.formatDate_spec (options : JSObject) (key : String)
    (hvalid : ∀ d, options.get key = .date d → d.iso ≠ none) :
    ∃ o, NewsAPI.formatDate options key = .ok o ∧
      o.map Prod.fst = options.map Prod.fst ∧
      (∀ k2, k2 ≠ key → o.get k2 = options.get k2) ∧
      (∀ d s, options.get key = .date d → d.iso = some s → o.get key = .str s) ∧
      ((∀ d, options.get key ≠ .date d) → o = options) := by
  cases hget : options.get key with
  | date d =>
    cases hiso : d.iso with
    | none => exact absurd hiso (hvalid d hget)
    | some s =>
      have hmem : key ∈ options.map Prod.fst := by
        have := JSObject.mem_of_get_isPresent options key (by rw [hget]; rfl)
        exact List.mem_map_of_mem Prod.fst this
      refine ⟨options.set key (.str s), ?_, JSObject.set_keys options key _ hmem, ?_, ?_, ?_⟩
      · unfold NewsAPI.formatDate
        rw [hget]
        simp only [hiso]
      · intro k2 hk2
        rw [JSObject.get_set, if_neg (Ne.symm hk2)]
      · intro d2 s2 hd2 hs2
        rw [JSObject.get_set, if_pos rfl]
        cases hd2
        rw [hiso] at hs2
        cases hs2
        rfl
      · intro hno
        exact absurd rfl (hno d)
  | undefined | null | bool _ | num _ | str _ | arr _ =>
    refine ⟨options, ?_, rfl, fun _ _ => rfl, ?_, fun _ => rfl⟩
    · unfold NewsAPI.formatDate
      rw [hget]
    · intro d s hd
      cases hd

theorem NewsAPI.search_eq (self : NewsAPI) (fetch : Fetch) (options o1 o2 : JSObject)
    (h1 : NewsAPI.formatDate options "startDate" = .ok o1)
    (h2 : NewsAPI.formatDate o1 "endDate" = .ok o2) :
    self.search fetch options = self._makeRequest fetch o2 self.searchEndpoint := by
  unfold NewsAPI.search
  rw [h1]
  simp only [h2]

theorem NewsAPI.headlines_eq (self : NewsAPI) (fetch : Fetch) (options o1 o2 : JSObject)
    (h1 : NewsAPI.formatDate options "startDate" = .ok o1)
    (h2 : NewsAPI.formatDate o1 "endDate" = .ok o2) :
    self.headlines fetch options = self._makeRequest fetch o2 self.headlinesEndpoint := by
  unfold NewsAPI.headlines
  rw [h1]
  simp only [h2]

/-- The values under a name other than `apikey` in the URL built from a
well-formed mapping. -/
theorem NewsAPI.paramValues_of_get (self : NewsAPI) (params : JSObject) (endpoint url : String)
    (u : URL) (name : String) (h : URL.parse endpoint = some u)
    (hurl : self._buildUrl params endpoint = .ok url) (hn : name ≠ "apikey")
    (hu : ∀ p ∈ u.searchParams, p.1 ≠ name) (hwf : params.WF) :
    paramValues url name =
      if (params.get name).isPresent then [(params.get name).toStr] else [] := by
  obtain ⟨url2, h1, h2⟩ := NewsAPI.paramValues_buildUrl self params endpoint u h name hu
  rw [hurl] at h1
  cases h1
  rw [h2, if_neg hn, List.nil_append, JSObject.filter_key params hwf name]

/-- The date fields of the request URL when no date of the options is an
invalid date. -/
theorem NewsAPI.valid_dates (self : NewsAPI) (fetch : Fetch) (options : JSObject)
    (us uh : URL) (hwf : options.WF)
    (hs : URL.parse self.searchEndpoint = some us)
    (hh : URL.parse self.headlinesEndpoint = some uh)
    (hus : ∀ p ∈ us.searchParams, p.1 ≠ "startDate" ∧ p.1 ≠ "endDate")
    (huh : ∀ p ∈ uh.searchParams, p.1 ≠ "startDate" ∧ p.1 ≠ "endDate")
    (hvs : ∀ d, options.get "startDate" = .date d → d.iso ≠ none)
    (hve : ∀ d, options.get "endDate" = .date d → d.iso ≠ none) :
    ∃ normalized urlS urlH,
      self.search fetch options = self._makeRequest fetch normalized self.searchEndpoint ∧
      self.headlines fetch options =
        self._makeRequest fetch normalized self.headlinesEndpoint ∧
      (self.search fetch options).requests = [urlS] ∧
      (self.headlines fetch options).requests = [urlH] ∧
      (∀ d s, options.get "startDate" = .date d → d.iso = some s →
        paramValues urlS "startDate" = [s] ∧ paramValues urlH "startDate" = [s]) ∧
      (∀ s, options.get "startDate" = .str s →
        paramValues urlS "startDate" = [s] ∧ paramValues urlH "startDate" = [s]) ∧
      (∀ d s, options.get "endDate" = .date d → d.iso = some s →
        paramValues urlS "endDate" = [s] ∧ paramValues urlH "endDate" = [s]) ∧
      (∀ s, options.get "endDate" = .str s →
        paramValues urlS "endDate" = [s] ∧ paramValues urlH "endDate" = [s]) ∧
      normalized.map Prod.fst = options.map Prod.fst ∧
      (∀ key, key ≠ "startDate" → key ≠ "endDate" →
        normalized.get key = options.get key) := by
  obtain ⟨o1, f1, k1, g1, d1, e1⟩ := NewsAPI.formatDate_spec options "startDate" hvs
  have hve1 : ∀ d, o1.get "endDate" = .date d → d.iso ≠ none := by
    rw [g1 "endDate" (by decide)]
    exact hve
  obtain ⟨o2, f2, k2, g2, d2, e2⟩ := NewsAPI.formatDate_spec o1 "endDate" hve1
  have hwf2 : JSObject.WF o2 := by
    unfold JSObject.WF
    rw [k2, k1]
    exact hwf
  obtain ⟨urlS, _, bS, _⟩ := NewsAPI.buildUrl_ok self o2 self.searchEndpoint us hs
  obtain ⟨urlH, _, bH, _⟩ := NewsAPI.buildUrl_ok self o2 self.headlinesEndpoint uh hh
  have hval : ∀ key s, key ≠ "apikey" → (key = "startDate" ∨ key = "endDate") →
      o2.get key = .str s →
      paramValues urlS key = [s] ∧ paramValues urlH key = [s] := by
    intro key s hk hkey hget
    have h1 := NewsAPI.paramValues_of_get self o2 self.searchEndpoint urlS us key hs bS hk
      (fun p hp => by rcases hkey with h | h <;> subst h; exact (hus p hp).1; exact (hus p hp).2)
      hwf2
    have h2 := NewsAPI.paramValues_of_get self o2 self.headlinesEndpoint urlH uh key hh bH hk
      (fun p hp => by rcases hkey with h | h <;> subst h; exact (huh p hp).1; exact (huh p hp).2)
      hwf2
    rw [hget] at h1 h2
    exact ⟨h1, h2⟩
  have hsearch := NewsAPI.search_eq self fetch options o1 o2 f1 f2
  have hhead := NewsAPI.headlines_eq self fetch options o1 o2 f1 f2
  refine ⟨o2, urlS, urlH, hsearch, hhead, ?_, ?_, ?_, ?_, ?_, ?_, k2.trans k1, ?_⟩
  · rw [hsearch, NewsAPI.makeRequest_of_url self fetch o2 _ urlS bS]
  · rw [hhead, NewsAPI.makeRequest_of_url self fetch o2 _ urlH bH]
  · intro d s hd hiso
    apply hval "startDate" s (by decide) (Or.inl rfl)
    rw [g2 "startDate" (by decide)]
    exact d1 d s hd hiso
  · intro s hstr
    apply hval "startDate" s (by decide) (Or.inl rfl)
    rw [g2 "startDate" (by decide), e1 (fun d hd => by rw [hstr] at hd; cases hd)]
    exact hstr
  · intro d s hd hiso
    apply hval "endDate" s (by decide) (Or.inr rfl)
    apply d2 d s _ hiso
    rw [g1 "endDate" (by decide)]
    exact hd
  · intro s hstr
    apply hval "endDate" s (by decide) (Or.inr rfl)
    have h1 : o1.get "endDate" = .str s := by
      rw [g1 "endDate" (by decide)]
      exact hstr
    rw [e2 (fun d hd => by rw [h1] at hd; cases hd)]
    exact h1
  · intro key hk1 hk2
    rw [g2 key hk2, g1 key hk1]

theorem NewsAPI.formatDate_invalid (options : JSObject) (key : String) (d : JSDate)
    (hget : options.get key = .date d) (hiso : d.iso = none) :
    NewsAPI.formatDate options key = .error (.error "RangeError" "Invalid time value") := by
  unfold NewsAPI.formatDate
  rw [hget]
  simp only [hiso]

/-- An invalid date at `startDate` or `endDate` makes both operations reject
before any request. -/
theorem NewsAPI.invalid_dates (self : NewsAPI) (fetch : Fetch) (options : JSObject)
    (h : (∃ d, options.get "startDate" = .date d ∧ d.iso = none) ∨
      (∃ d, options.get "endDate" = .date d ∧ d.iso = none)) :
    self.search fetch options =
        { result := .error (.error "RangeError" "Invalid time value"), requests := [] } ∧
      self.headlines fetch options =
        { result := .error (.error "RangeError" "Invalid time value"), requests := [] } := by
  by_cases hstart : ∃ d, options.get "startDate" = .date d ∧ d.iso = none
  · obtain ⟨d, hd, hiso⟩ := hstart
    have hf := NewsAPI.formatDate_invalid options "startDate" d hd hiso
    constructor
    · unfold NewsAPI.search
      rw [hf]
    · unfold NewsAPI.headlines
      rw [hf]
  · have hvs : ∀ d, options.get "startDate" = .date d → d.iso ≠ none :=
      fun d hd hiso => hstart ⟨d, hd, hiso⟩
    obtain ⟨o1, f1, _, g1, _, _⟩ := NewsAPI.formatDate_spec options "startDate" hvs
    rcases h with h | ⟨d, hd, hiso⟩
    · exact absurd h hstart
    · have hf := NewsAPI.formatDate_invalid o1 "endDate" d
        (by rw [g1 "endDate" (by decide)]; exact hd) hiso
      constructor
      · unfold NewsAPI.search
        rw [f1]
        simp only [hf]
      · unfold NewsAPI.headlines
        rw [f1]
        simp only [hf]

/-- C7, as stated, fails: for the options
`{startDate: "2024-01-01", endDate: new Date(NaN)}` the call of `search`
rejects with the `RangeError` of `toISOString` and requests nothing, so no
request URL carries the string `startDate`. -/
theorem search_invalid_date :
    (sampleClient.search (fun _ => .ok sampleResponse)
        [("startDate", .str "2024-01-01"),
         ("endDate", .date { iso := none, text := "Invalid Date" })]).result =
        .error (.error "RangeError" "Invalid time value") ∧
      (sampleClient.search (fun _ => .ok sampleResponse)
        [("startDate", .str "2024-01-01"),
         ("endDate", .date { iso := none, text := "Invalid Date" })]).requests = [] :=
  ⟨rfl, rfl⟩

/-- C7 (amended): for every options mapping passed to `search` or
`headlines`, on endpoints that carry no `startDate` or `endDate` parameter of
their own: when neither `startDate` nor `endDate` is an invalid date object,
one request is made, and if `startDate` (respectively `endDate`) is a date
object the request URL carries `startDate` (respectively `endDate`) equal to
that date's ISO 8601 string (`toISOString`), if it is a plain string the
request URL carries that string unmodified, and no other field of the
options is changed by the normalization; when `startDate` or `endDate` is an
invalid date object, the call rejects with the `RangeError` of `toISOString`
and no request is made. -/
theorem search_headlines_dates (self : NewsAPI) (fetch : Fetch) (options : JSObject)
    (us uh : URL) (hwf : options.WF)
    (hs : URL.parse self.searchEndpoint = some us)
    (hh : URL.parse self.headlinesEndpoint = some uh)
    (hus : ∀ p ∈ us.searchParams, p.1 ≠ "startDate" ∧ p.1 ≠ "endDate")
    (huh : ∀ p ∈ uh.searchParams, p.1 ≠ "startDate" ∧ p.1 ≠ "endDate") :
    ((∀ d, options.get "startDate" = .date d → d.iso ≠ none) →
      (∀ d, options.get "endDate" = .date d → d.iso ≠ none) →
      ∃ normalized urlS urlH,
        self.search fetch options = self._makeRequest fetch normalized self.searchEndpoint ∧
        self.headlines fetch options =
          self._makeRequest fetch normalized self.headlinesEndpoint ∧
        (self.search fetch options).requests = [urlS] ∧
        (self.headlines fetch options).requests = [urlH] ∧
        (∀ d s, options.get "startDate" = .date d → d.iso = some s →
          paramValues urlS "startDate" = [s] ∧ paramValues urlH "startDate" = [s]) ∧
        (∀ s, options.get "startDate" = .str s →
          paramValues urlS "startDate" = [s] ∧ paramValues urlH "startDate" = [s]) ∧
        (∀ d s, options.get "endDate" = .date d → d.iso = some s →
          paramValues urlS "endDate" = [s] ∧ paramValues urlH "endDate" = [s]) ∧
        (∀ s, options.get "endDate" = .str s →
          paramValues urlS "endDate" = [s] ∧ paramValues urlH "endDate" = [s]) ∧
        normalized.map Prod.fst = options.map Prod.fst ∧
        (∀ key, key ≠ "startDate" → key ≠ "endDate" →
          normalized.get key = options.get key)) ∧
      ((∃ d, options.get "startDate" = .date d ∧ d.iso = none) ∨
          (∃ d, options.get "endDate" = .date d ∧ d.iso = none) →
        (∃ message, (self.search fetch options).result =
          .error (.error "RangeError" message)) ∧
        (self.search fetch options).requests = [] ∧
        (∃ message, (self.headlines fetch options).result =
          .error (.error "RangeError" message)) ∧
        (self.headlines fetch options).requests = []) := by
  refine ⟨fun hvs hve =>
    NewsAPI.valid_dates self fetch options us uh hwf hs hh hus huh hvs hve, ?_⟩
  intro hinv
  obtain ⟨h1, h2⟩ := NewsAPI.invalid_dates self fetch options hinv
  rw [h1, h2]
  exact ⟨⟨_, rfl⟩, rfl, ⟨_, rfl⟩, rfl⟩

/-- C7 (amended), instance: a date-typed `startDate` reaches the request URL
of `headlines` as its ISO 8601 string, a string `endDate` unmodified. -/
theorem search_headlines_dates_witness :
    sampleOptions.WF ∧
      URL.parse sampleClient.searchEndpoint = some sampleSearchURL ∧
      URL.parse sampleClient.headlinesEndpoint = some sampleHeadlinesURL ∧
      ∃ urlS urlH,
        (sampleClient.search (fun _ => .ok sampleResponse) sampleOptions).requests = [urlS] ∧
        (sampleClient.headlines (fun _ => .ok sampleResponse) sampleOptions).requests = [urlH] ∧
        paramValues urlH "startDate" = ["2024-01-01T00:00:00.000Z"] ∧
        paramValues urlH "endDate" = ["2024-02-01"] :=
  by
  refine ⟨by decide, rfl, rfl, ?_⟩
  obtain ⟨_, urlS, urlH, _, _, r1, r2, c1, _, _, c4, _, _⟩ :=
    (search_headlines_dates sampleClient (fun _ => .ok sampleResponse) sampleOptions
      sampleSearchURL sampleHeadlinesURL (by decide) rfl rfl (fun _ hp => nomatch hp)
      (fun _ hp => nomatch hp)).1
      (fun d hd => by
        have h2 : sampleOptions.get "startDate" = .date
            { iso := some "2024-01-01T00:00:00.000Z",
              text := "Mon Jan 01 2024 00:00:00 GMT+0000" } := rfl
        rw [h2] at hd
        cases hd
        exact fun h => nomatch h)
      (fun d hd => by
        have h2 : sampleOptions.get "endDate" = .str "2024-02-01" := rfl
        rw [h2] at hd
        cases hd)
  exact ⟨urlS, urlH, r1, r2, (c1 _ "2024-01-01T00:00:00.000Z" rfl rfl).2,
    (c4 "2024-02-01" rfl).2⟩

theorem NewsAPI.makeRequest_requests (self : NewsAPI) (fetch : Fetch) (params : JSObject)
    (endpoint url : String) (h : url ∈ (self._makeRequest fetch params endpoint).requests) :
    self._buildUrl params endpoint = .ok url := by
  unfold NewsAPI._makeRequest at h
  cases hb : self._buildUrl params endpoint with
  | error e =>
    rw [hb] at h
    cases h
  | ok url2 =>
    rw [hb] at h
    rw [List.mem_singleton.mp h]

theorem NewsAPI.search_requests (self : NewsAPI) (fetch : Fetch) (options : JSObject)
    (url : String) (h : url ∈ (self.search fetch options).requests) :
    ∃ o, self._buildUrl o self.searchEndpoint = .ok url := by
  unfold NewsAPI.search at h
  cases h1 : NewsAPI.formatDate options "startDate" with
  | error e =>
    rw [h1] at h
    cases h
  | ok o1 =>
    rw [h1] at h
    cases h2 : NewsAPI.formatDate o1 "endDate" with
    | error e =>
      simp only [h2] at h
      cases h
    | ok o2 =>
      simp only [h2] at h
      exact ⟨o2, NewsAPI.makeRequest_requests self fetch o2 _ url h⟩

theorem NewsAPI.buildUrl_parse (self : NewsAPI) (params : JSObject) (endpoint url : String)
    (h : self._buildUrl params endpoint = .ok url) : ∃ u, URL.parse endpoint = some u := by
  unfold NewsAPI._buildUrl at h
  cases hp : URL.parse endpoint with
  | none =>
    rw [hp] at h
    cases h
  | some u => exact ⟨u, rfl⟩

/-- Every URL that `search` requests is built on the client's search
endpoint: it parses, with the scheme, host, path and fragment of that
endpoint. -/
theorem NewsAPI.search_targets (self : NewsAPI) (fetch : Fetch) (options : JSObject)
    (url : String) (h : url ∈ (self.search fetch options).requests) :
    ∃ u v, URL.parse self.searchEndpoint = some u ∧ URL.parse url = some v ∧
      v.base = u.base ∧ v.fragment = u.fragment := by
  obtain ⟨o, ho⟩ := NewsAPI.search_requests self fetch options url h
  obtain ⟨u, hu⟩ := NewsAPI.buildUrl_parse self o _ url ho
  obtain ⟨url2, v, b1, b2, b3, b4, _⟩ := NewsAPI.buildUrl_ok self o self.searchEndpoint u hu
  rw [ho] at b1
  cases b1
  exact ⟨u, v, hu, b2, b3, b4⟩

/-- C9: for every constructed client, the base URL `b` is the configured
override or, when none is given, `https://api.allnewsapi.com`; `headlines`
is `search` run against the headlines endpoint, so the two operations differ
only in the target; every URL requested by `search(options)` is built on the
endpoint `b` followed by `/v1/search` (it has the scheme, host, path and
fragment of that endpoint) and every URL requested by `headlines(options)`
on `b` followed by `/v1/headlines`; and when these endpoints are URLs and no
date of the options is invalid, each operation requests exactly one URL, on
its own endpoint, and both append the same query parameters. -/
theorem search_headlines_endpoints (apiKey : JSVal) (config : JSObject) (client : NewsAPI)
    (hc : (NewsAPI.new apiKey config).result = .ok client) :
    client.baseUrl = (config.get "baseUrl").or (.str "https://api.allnewsapi.com") ∧
      (config.get "baseUrl" = .undefined →
        client.baseUrl = .str "https://api.allnewsapi.com") ∧
      (∀ fetch options, client.headlines fetch options =
        NewsAPI.search { client with searchEndpoint := client.headlinesEndpoint }
          fetch options) ∧
      (∀ fetch options url,
        (url ∈ (client.search fetch options).requests →
          ∃ u v, URL.parse (client.baseUrl.toStr ++ "/v1/search") = some u ∧
            URL.parse url = some v ∧ v.base = u.base ∧ v.fragment = u.fragment) ∧
        (url ∈ (client.headlines fetch options).requests →
          ∃ u v, URL.parse (client.baseUrl.toStr ++ "/v1/headlines") = some u ∧
            URL.parse url = some v ∧ v.base = u.base ∧ v.fragment = u.fragment)) ∧
      (∀ fetch options us uh,
        URL.parse (client.baseUrl.toStr ++ "/v1/search") = some us →
        URL.parse (client.baseUrl.toStr ++ "/v1/headlines") = some uh →
        (∀ d, options.get "startDate" = .date d → d.iso ≠ none) →
        (∀ d, options.get "endDate" = .date d → d.iso ≠ none) →
        ∃ urlS urlH vS vH common,
          (client.search fetch options).requests = [urlS] ∧
          (client.headlines fetch options).requests = [urlH] ∧
          URL.parse urlS = some vS ∧ vS.base = us.base ∧
          vS.searchParams = us.searchParams ++ common ∧
          URL.parse urlH = some vH ∧ vH.base = uh.base ∧
          vH.searchParams = uh.searchParams ++ common) := by
  have hnew : client =
      { apiKey := apiKey
        baseUrl := (config.get "baseUrl").or (.str "https://api.allnewsapi.com")
        searchEndpoint :=
          ((config.get "baseUrl").or (.str "https://api.allnewsapi.com")).toStr ++ "/v1/search"
        headlinesEndpoint :=
          ((config.get "baseUrl").or (.str "https://api.allnewsapi.com")).toStr ++
            "/v1/headlines" } := by
    unfold NewsAPI.new at hc
    split_ifs at hc
    cases hc
    rfl
  have hhead : ∀ fetch options, client.headlines fetch options =
      NewsAPI.search { client with searchEndpoint := client.headlinesEndpoint }
        fetch options := by
    intro fetch options
    rfl
  have hse : client.searchEndpoint = client.baseUrl.toStr ++ "/v1/search" := by
    rw [hnew]
  have hhe : client.headlinesEndpoint = client.baseUrl.toStr ++ "/v1/headlines" := by
    rw [hnew]
  refine ⟨by rw [hnew], ?_, hhead, ?_, ?_⟩
  · intro hno
    rw [hnew, hno]
    rfl
  · intro fetch options url
    constructor
    · intro hmem
      have := NewsAPI.search_targets client fetch options url hmem
      rw [hse] at this
      exact this
    · intro hmem
      rw [hhead fetch options] at hmem
      have := NewsAPI.search_targets _ fetch options url hmem
      rw [show ({ client with searchEndpoint := client.headlinesEndpoint } : NewsAPI).searchEndpoint
        = client.baseUrl.toStr ++ "/v1/headlines" from hhe] at this
      exact this
  · intro fetch options us uh hus huh hvs hve
    rw [← hse] at hus
    rw [← hhe] at huh
    obtain ⟨o1, f1, _, g1, _, _⟩ := NewsAPI.formatDate_spec options "startDate" hvs
    have hve1 : ∀ d, o1.get "endDate" = .date d → d.iso ≠ none := by
      rw [g1 "endDate" (by decide)]
      exact hve
    obtain ⟨o2, f2, _⟩ := NewsAPI.formatDate_spec o1 "endDate" hve1
    obtain ⟨urlS, vS, s1, s2, s3, _, s5, _⟩ :=
      NewsAPI.buildUrl_ok client o2 client.searchEndpoint us hus
    obtain ⟨urlH, vH, t1, t2, t3, _, t5, _⟩ :=
      NewsAPI.buildUrl_ok client o2 client.headlinesEndpoint uh huh
    refine ⟨urlS, urlH, vS, vH, ("apikey", client.apiKey.toStr) :: NewsAPI.entryPairs o2,
      ?_, ?_, s2, s3, s5, t2, t3, t5⟩
    · rw [NewsAPI.search_eq client fetch options o1 o2 f1 f2,
        NewsAPI.makeRequest_of_url client fetch o2 _ urlS s1]
    · rw [NewsAPI.headlines_eq client fetch options o1 o2 f1 f2,
        NewsAPI.makeRequest_of_url client fetch o2 _ urlH t1]

/-- C9, instance: the client constructed without override requests, for
`search` and `headlines` of the same options, one URL each, on
`https://api.allnewsapi.com/v1/search` and on
`https://api.allnewsapi.com/v1/headlines`, with the same query parameters. -/
theorem search_headlines_endpoints_witness :
    (NewsAPI.new (.str "k") []).result = .ok sampleClient ∧
      sampleClient.baseUrl = .str "https://api.allnewsapi.com" ∧
      ∃ urlS urlH vS vH common,
        (sampleClient.search (fun _ => .ok sampleResponse) sampleOptions).requests = [urlS] ∧
        (sampleClient.headlines (fun _ => .ok sampleResponse) sampleOptions).requests =
          [urlH] ∧
        URL.parse urlS = some vS ∧ vS.base = "https://api.allnewsapi.com/v1/search" ∧
        vS.searchParams = [] ++ common ∧
        URL.parse urlH = some vH ∧ vH.base = "https://api.allnewsapi.com/v1/headlines" ∧
        vH.searchParams = [] ++ common :=
  ⟨rfl, (search_headlines_endpoints (.str "k") [] sampleClient rfl).2.1 rfl,
    (search_headlines_endpoints (.str "k") [] sampleClient rfl).2.2.2.2
      (fun _ => .ok sampleResponse) sampleOptions sampleSearchURL sampleHeadlinesURL rfl rfl
      (fun d hd => by
        have h2 : sampleOptions.get "startDate" = .date
            { iso := some "2024-01-01T00:00:00.000Z",
              text := "Mon Jan 01 2024 00:00:00 GMT+0000" } := rfl
        rw [h2] at hd
        cases hd
        exact fun h => nomatch h)
      (fun d hd => by
        have h2 : sampleOptions.get "endDate" = .str "2024-02-01" := rfl
        rw [h2] at hd
        cases hd)⟩

end AllNewsAPI
